import Mathlib

/-!
Shallow embedding of the bank-statement parser repository
(`base.py`, `bca-pdf.py`, `cimb-pdf.py`, `mandiri-pdf.py`,
`mandiri-xlsx.py`, `config.py`, `process_statements.py`).

Strings are modelled as lists of characters; Python floats are modelled
as exact rationals (every numeric token handled by the parsers is a
finite decimal literal, so parsing is exact); Python `datetime` values
are modelled by a calendar-checked `PDate` structure.  Code that can let
an exception escape is modelled with `Option` (`none` = the exception
propagates to the caller).
-/

/-- Python strings, modelled as lists of characters. -/
abbrev Str := List Char

/-- Coerce a Lean string literal to the character-list model. -/
def lit (s : String) : Str := s.data

/-- Python `str.isspace` / regex `\s`, on the ASCII whitespace characters. -/
def pySpace (c : Char) : Bool :=
  c = ' ' || c = '\t' || c = '\n' || c = '\x0b' || c = '\x0c' || c = '\r'

/-- Regex `\d` / `str.isdigit` (ASCII digits). -/
def pyDigit (c : Char) : Bool := c.isDigit

/-- Python `str.isalpha`, modelled on the ASCII letters. -/
def pyAlpha (c : Char) : Bool := c.isAlpha

/-- Regex `\w` (ASCII model: letters, digits, underscore). -/
def pyWord (c : Char) : Bool := c.isAlpha || c.isDigit || c = '_'

/-- Python `str.lower()` (ASCII model). -/
def lowerStr (s : Str) : Str := s.map Char.toLower

/-- Python `str.upper()` (ASCII model). -/
def upperStr (s : Str) : Str := s.map Char.toUpper

/-- Python `str.strip()`: drop leading and trailing whitespace. -/
def pyStrip (s : Str) : Str := (s.dropWhile pySpace).rdropWhile pySpace

/-- Python substring test `needle in hay`. -/
def containsSub (needle : Str) : Str → Bool
  | [] => needle.isEmpty
  | c :: t => needle.isPrefixOf (c :: t) || containsSub needle t

/-- Case-insensitive prefix test (used by the IGNORECASE regex literals). -/
def ciPrefix (needle hay : Str) : Bool :=
  (lowerStr needle).isPrefixOf (lowerStr hay)

/-- Python `text.split(sep)` for a single separator character. -/
def splitOnChar (sep : Char) (s : Str) : List Str := s.splitOn sep

/-- Helper for `collapseWs`: `inRun` records whether the previous
character was whitespace (already rendered as the single space). -/
def collapseWsGo (inRun : Bool) : Str → Str
  | [] => []
  | c :: t =>
    if pySpace c then
      if inRun then collapseWsGo true t else ' ' :: collapseWsGo true t
    else c :: collapseWsGo false t

/-- Regex substitution `\s+` → a single space, as used by the
`re.sub(r'\s+', ' ', ...)` calls in every parser. -/
def collapseWs (s : Str) : Str := collapseWsGo false s

/-- Numeric value of a digit string (model of `int()` on digit runs). -/
def digitsVal (s : Str) : Nat :=
  s.foldl (fun a c => a * 10 + (c.toNat - '0'.toNat)) 0

/-- Python `float()` on an unsigned decimal string: `digits`, `digits.`,
`.digits` or `digits.digits`, with at least one digit; the value is the
integer part plus fraction/10^(number of fractional digits), written as
one exact `Rat.divInt` fraction.  Exotic spellings the library also
accepts (exponents, `inf`, `nan`, underscores) never occur in the
statements and are not modelled. -/
def pyFloatUnsigned (s : Str) : Option Rat :=
  match s.dropWhile pyDigit with
  | [] =>
    if (s.takeWhile pyDigit).isEmpty then none
    else some ((digitsVal (s.takeWhile pyDigit) : Nat) : Rat)
  | '.' :: frac =>
    if frac.all pyDigit && !((s.takeWhile pyDigit).isEmpty && frac.isEmpty) then
      some (Rat.divInt
        ((digitsVal (s.takeWhile pyDigit) : Int) * (10 : Int) ^ frac.length
          + (digitsVal frac : Int))
        ((10 : Int) ^ frac.length))
    else none
  | _ => none

/-- Kernel-computable rational addition; provably equal to `+` (used so
that concrete parse runs evaluate by `decide`). -/
def rAdd (a b : Rat) : Rat :=
  Rat.divInt (a.num * (b.den : Int) + b.num * (a.den : Int)) ((a.den : Int) * (b.den : Int))

/-- Kernel-computable rational subtraction; provably equal to `-`. -/
def rSub (a b : Rat) : Rat := rAdd a (-b)

/-- Python `float()`: strip surrounding whitespace and an optional single
leading sign, then parse the unsigned remainder. -/
def pyFloat? (s : Str) : Option Rat :=
  if (pyStrip s).head? == some '-' then
    (pyFloatUnsigned (pyStrip s).tail).map (fun v => -v)
  else if (pyStrip s).head? == some '+' then pyFloatUnsigned (pyStrip s).tail
  else pyFloatUnsigned (pyStrip s)

/-- A Python `datetime` date (no parser retains the time of day). -/
structure PDate where
  year : Nat
  month : Nat
  day : Nat
deriving DecidableEq, Repr

/-- Gregorian leap-year rule (as implemented by `datetime`). -/
def isLeap (y : Nat) : Bool := (y % 4 = 0 && y % 100 ≠ 0) || y % 400 = 0

/-- Days in a month of a given year (as implemented by `datetime`). -/
def daysInMonth (y m : Nat) : Nat :=
  if m = 2 then (if isLeap y then 29 else 28)
  else if m = 4 || m = 6 || m = 9 || m = 11 then 30 else 31

/-- Model of the `datetime(year, month, day)` constructor: `some` on a
valid calendar date in the supported range, `none` when the constructor
would raise `ValueError`. -/
def tryMkDate (y m d : Nat) : Option PDate :=
  if 1 ≤ y && y ≤ 9999 && 1 ≤ m && m ≤ 12 && 1 ≤ d && d ≤ daysInMonth y m then
    some ⟨y, m, d⟩
  else none

/-- The `Transaction` dataclass of `base.py`.  `amount` and `balance` are
Python floats, modelled as exact rationals; `type` keeps the source's
string representation ("DEBIT" / "CREDIT"). -/
structure Transaction where
  date : PDate
  description : Str
  amount : Rat
  type : Str
  balance : Rat
  reference_no : Str
  bank_name : Str
  account_owner : Str
  currency : Str
deriving DecidableEq, Repr

/-- The `DateFormatValidator.PRESETS` table of `config.py`. -/
def PRESETS : List (Str × Str) :=
  [ (lit "dd/mm/yyyy", lit "%d/%m/%Y"),
    (lit "ddmmyyyy", lit "%d%m%Y"),
    (lit "mmyyyy", lit "%m%Y"),
    (lit "mmmm", lit "%B"),
    (lit "mm", lit "%b"),
    (lit "dd/mm", lit "%d/%m"),
    (lit "yyyymmdd", lit "%Y%m%d") ]

/-- Preset lookup performed by `validate_and_get_format` (the key is the
lower-cased user string). -/
def lookupPreset (k : Str) : Option Str :=
  (PRESETS.find? (fun p => p.1 == k)).map (·.2)

/-- Month-directive check of `validate_and_get_format` (`%m`, `%b`, `%B`). -/
def hasMonthDirective (s : Str) : Bool :=
  containsSub (lit "%m") s || containsSub (lit "%b") s || containsSub (lit "%B") s

/-- Year-directive check of `validate_and_get_format` (`%Y`, `%y`). -/
def hasYearDirective (s : Str) : Bool :=
  containsSub (lit "%Y") s || containsSub (lit "%y") s

/-- Modelled from the library: the `datetime(2025, 1, 15).strftime(...)`
probe in `validate_and_get_format` never raises on this platform (glibc
renders unknown directives literally), so the probe always succeeds. -/
def strftimeProbeOk (_s : Str) : Bool := true

/-- `DateFormatValidator.validate_and_get_format` of `config.py`;
`Except.error` models the raised `ValueError`. -/
def validateAndGetFormat (formatString : Str) : Except Str Str :=
  match lookupPreset (lowerStr formatString) with
  | some v => .ok v
  | none =>
    if !hasMonthDirective formatString || !hasYearDirective formatString then
      .error (lit "must contain both month and year components")
    else if strftimeProbeOk formatString then .ok formatString
    else .error (lit "invalid date format")

/-- `OutputFormat` of `config.py` (configuration value; only construction
is relevant to the verified claims). -/
structure OutputFormat where
  date_format : Str
  combine_debit_credit : Bool
  include_reference : Bool
  include_balance : Bool
  include_bank : Bool
  include_owner : Bool
  currency : Str
  include_currency_col : Bool
  filename_format : Str
deriving DecidableEq, Repr

/-- `OutputFormat.__init__` of `config.py`: validates the date format
first (raising, modelled by `Except.error`) and otherwise stores the
remaining configuration unchanged. -/
def mkOutputFormat (dateFormat : Str) (combineDebitCredit : Bool)
    (includeReference : Bool) (includeBalance : Bool) (includeBank : Bool)
    (includeOwner : Bool) (currency : Str) (includeCurrencyCol : Bool)
    (filenameFormat : Option Str) : Except Str OutputFormat :=
  match validateAndGetFormat dateFormat with
  | .error e => .error e
  | .ok df =>
    .ok { date_format := df,
          combine_debit_credit := combineDebitCredit,
          include_reference := includeReference,
          include_balance := includeBalance,
          include_bank := includeBank,
          include_owner := includeOwner,
          currency := currency,
          include_currency_col := includeCurrencyCol,
          filename_format :=
            filenameFormat.getD
              (lit "\x7bbank\x7d-[\x7bowner\x7d]-\x7baccount\x7d-\x7bstart_date\x7d-\x7bend_date\x7d.csv") }

/-- Keep-predicate of the owner-name sanitization in
`OutputFormat.format_filename` (config.py lines 192-194) and
`process_file` (process_statements.py line 72): letters, whitespace, or
a period survive. -/
def ownerKeep (c : Char) : Bool := pyAlpha c || pySpace c || c = '.'

/-- Owner-name sanitization: keep letters/whitespace/periods, then strip. -/
def sanitizeOwner (s : Str) : Str := pyStrip (s.filter ownerKeep)

/-- `MandiriPDFParser._parse_amount` (mandiri-pdf.py lines 29-40): empty
token yields 0; otherwise strip, record a leading '-', drop every leading
sign, delete the thousands dots, turn the decimal comma into a dot, and
try `float`; any parse failure yields 0.0. -/
def mandiriPdfParseAmount (s : Str) : Rat :=
  if s.isEmpty then 0
  else
    let t := pyStrip s
    let isNeg := t.head? == some '-'
    let t2 := t.dropWhile (fun c => c = '+' || c = '-')
    let t3 := (t2.filter (fun c => c ≠ '.')).map (fun c => if c = ',' then '.' else c)
    match pyFloat? t3 with
    | some v => if isNeg then -v else v
    | none => 0

/-- A spreadsheet cell as delivered by `pandas.read_excel` with
`header=None`: a string, an int, a float, a native datetime, or NaN for
a blank cell. -/
inductive Cell
  | empty
  | str (s : Str)
  | int (n : Int)
  | float (q : Rat)
  | date (d : PDate)
deriving DecidableEq, Repr

/-- Decimal digits of a natural number. -/
def natRepr (n : Nat) : Str := Nat.toDigits 10 n

/-- Python `str()` of an int. -/
def intRepr (n : Int) : Str :=
  if n < 0 then '-' :: natRepr n.natAbs else natRepr n.natAbs

/-- Fractional decimal digits of a rational in `[0, 1)` (fuel-bounded;
the statements' float cells carry at most two decimals). -/
def fracDigits : Nat → Rat → Str
  | 0, _ => []
  | fuel + 1, q =>
    if q = 0 then []
    else
      let d := (⌊q * 10⌋).toNat
      natRepr d ++ fracDigits fuel (q * 10 - (d : Rat))

/-- Modelled from the library: Python `str()` of a float value (the
cells appearing in statements are plain decimals, rendered as
`digits.digits` with at least one fractional digit). -/
def floatRepr (q : Rat) : Str :=
  let sign : Str := if q < 0 then ['-'] else []
  let a := |q|
  let ip := (⌊a⌋).toNat
  let fr := fracDigits 12 (a - (ip : Rat))
  sign ++ natRepr ip ++ '.' :: (if fr.isEmpty then ['0'] else fr)

/-- Zero-padded two-digit rendering. -/
def pad2 (n : Nat) : Str := if n < 10 then '0' :: natRepr n else natRepr n

/-- Modelled from the library: Python `str()` of a pandas Timestamp. -/
def dateRepr (d : PDate) : Str :=
  natRepr d.year ++ '-' :: pad2 d.month ++ '-' :: pad2 d.day ++ lit " 00:00:00"

/-- Python `str(cell)` as produced by pandas (`"nan"` for NaN cells). -/
def cellToStr : Cell → Str
  | .empty => lit "nan"
  | .str s => s
  | .int n => intRepr n
  | .float q => floatRepr q
  | .date d => dateRepr d

/-- `pd.isna` on a cell. -/
def pdIsNa : Cell → Bool
  | .empty => true
  | _ => false

/-- Delete every (non-overlapping, left-to-right) occurrence of `needle`
(fuel-indexed helper for Python `str.replace(needle, '')`). -/
def removeSubGo (needle : Str) : Nat → Str → Str
  | 0, s => s
  | fuel + 1, s =>
    match s with
    | [] => []
    | c :: t =>
      if !needle.isEmpty && needle.isPrefixOf (c :: t) then
        removeSubGo needle fuel (t.drop (needle.length - 1))
      else c :: removeSubGo needle fuel t

/-- Python `str.replace(needle, '')`. -/
def removeSub (needle s : Str) : Str := removeSubGo needle s.length s

/-- `MandiriXLSXParser._parse_amount` (mandiri-xlsx.py lines 214-230):
NaN or a bare "-" yields 0; int/float cells pass through; strings lose
any "Rp" marker and thousands dots, the decimal comma becomes a dot, and
`float` is tried; failure yields 0.0. -/
def xlsxParseAmount (val : Cell) : Rat :=
  if pdIsNa val || (pyStrip (cellToStr val) == lit "-") then 0
  else
    match val with
    | .int n => (n : Rat)
    | .float q => q
    | _ =>
      let s1 := pyStrip (removeSub (lit "Rp") (pyStrip (cellToStr val)))
      let s2 := (s1.filter (fun c => c ≠ '.')).map (fun c => if c = ',' then '.' else c)
      (pyFloat? s2).getD 0

/-- Claim-side (C8): the remainder of a token after the mandiri-pdf.py
`_parse_amount` normalisation (strip, drop leading signs, delete dots,
comma becomes dot). -/
def pdfAmountRemainder (s : Str) : Str :=
  (((pyStrip s).dropWhile (fun c => c = '+' || c = '-')).filter
    (fun c => c ≠ '.')).map (fun c => if c = ',' then '.' else c)

/-- Claim-side (C8): did the token carry a leading '-' sign (after
stripping whitespace), as recorded by `is_negative` in the source. -/
def pdfHasMinus (s : Str) : Bool := (pyStrip s).head? == some '-'

/-- Claim-side (C8): the remainder of a string cell after the
mandiri-xlsx.py `_parse_amount` normalisation. -/
def xlsxStrRemainder (s : Str) : Str :=
  ((pyStrip (removeSub (lit "Rp") (pyStrip s))).filter
    (fun c => c ≠ '.')).map (fun c => if c = ',' then '.' else c)

/-- Modelled from the library: `pd.to_datetime(s, dayfirst=True)` on the
slash-separated day-first date strings found in the statements
(`d{1,2}/d{1,2}/d{4}`); other accepted spellings never occur and are not
modelled (they fail here as they would be skipped there). -/
def pdToDatetime (s : Str) : Option PDate :=
  match splitOnChar '/' s with
  | [d, m, y] =>
    if !d.isEmpty && d.length ≤ 2 && d.all pyDigit &&
        !m.isEmpty && m.length ≤ 2 && m.all pyDigit &&
        y.length == 4 && y.all pyDigit then
      tryMkDate (digitsVal y) (digitsVal m) (digitsVal d)
    else none
  | _ => none

/-- Python `" ".join(str(x) for x in row)`. -/
def rowJoin (row : List Cell) : Str :=
  List.intercalate [' '] (row.map cellToStr)

/-- Python `" ".join(str(x).lower() for x in row)`. -/
def rowJoinLower (row : List Cell) : Str :=
  List.intercalate [' '] (row.map (fun c => lowerStr (cellToStr c)))

/-- Does any cell of the row contain the keyword (case-insensitively),
as in `any('tanggal' in s for s in row_str)`. -/
def cellHas (kw : Str) (row : List Cell) : Bool :=
  row.any (fun c => containsSub kw (lowerStr (cellToStr c)))

/-- Regex fragment `.*?\s*:` (mandiri-xlsx.py line 58): find the first
':' reachable from the anchor by non-newline characters followed by
whitespace, and return the text after it. -/
def colonSearchGo (seg : Str) : Str → Option Str
  | [] => none
  | ':' :: t =>
    if (seg.rdropWhile pySpace).all (fun c => c ≠ '\n') then some t
    else colonSearchGo (seg ++ [':']) t
  | c :: t => colonSearchGo (seg ++ [c]) t

/-- Regex `(?:Nama|Name).*?\s*:\s*(.*)` (IGNORECASE): scan for the first
"nama"/"name" anchor whose continuation finds a colon; the group is the
rest of that line after the colon and any following whitespace. -/
def namaAnchor : Str → Option Str
  | [] => none
  | c :: t =>
    if ciPrefix (lit "nama") (c :: t) || ciPrefix (lit "name") (c :: t) then
      match colonSearchGo [] ((c :: t).drop 4) with
      | some tail => some ((tail.dropWhile pySpace).takeWhile (fun ch => ch ≠ '\n'))
      | none => namaAnchor t
    else namaAnchor t

/-- Alternative `\s+nan\s+` (IGNORECASE) of the owner-cleanup split. -/
def isNanSplit (s : Str) : Bool :=
  !(s.takeWhile pySpace).isEmpty &&
    ciPrefix (lit "nan") (s.dropWhile pySpace) &&
    !(((s.dropWhile pySpace).drop 3).takeWhile pySpace).isEmpty

/-- Alternative `\s{2,}` of the owner-cleanup split. -/
def isWsSplit (s : Str) : Bool := 2 ≤ (s.takeWhile pySpace).length

/-- Alternatives `Periode|Period` (IGNORECASE) of the owner-cleanup split. -/
def isPeriodSplit (s : Str) : Bool := ciPrefix (lit "period") s

/-- `re.split(r'\s+nan\s+|\s{2,}|Periode|Period', raw, IGNORECASE)[0]`:
the prefix before the earliest match of any alternative. -/
def splitCleanPrefix : Str → Str
  | [] => []
  | c :: t =>
    if isNanSplit (c :: t) || isWsSplit (c :: t) || isPeriodSplit (c :: t) then []
    else c :: splitCleanPrefix t

/-- Owner-name extraction from one grid row (mandiri-xlsx.py lines
51-67): gate on a "nama"/"name" keyword in the lower-cased joined row,
match the keyword-colon pattern on the joined row, truncate the captured
value at the first `nan` token / 2+ spaces / period keyword, and accept
it unless blank, "nan" or "unknown". -/
def xlsxOwnerFromRow (row : List Cell) : Option Str :=
  if containsSub (lit "nama") (rowJoinLower row) ||
      containsSub (lit "name") (rowJoinLower row) then
    match namaAnchor (rowJoin row) with
    | none => none
    | some grp =>
      let cleanVal := pyStrip (splitCleanPrefix (pyStrip grp))
      if !cleanVal.isEmpty && !(lowerStr cleanVal == lit "nan") &&
          !(lowerStr cleanVal == lit "unknown") then
        some cleanVal
      else none
  else none

/-- Header-row discovery (mandiri-xlsx.py lines 46-71): scan rows from
the top, folding in owner-name updates, until a row whose cells contain
"tanggal" and "uraian"/"keterangan". -/
def xlsxFindHeaderGo : List (List Cell) → Nat → Str → Option Nat × Str
  | [], _, owner => (none, owner)
  | row :: rest, idx, owner =>
    let owner2 := match xlsxOwnerFromRow row with
      | some o => o
      | none => owner
    if cellHas (lit "tanggal") row &&
        (cellHas (lit "uraian") row || cellHas (lit "keterangan") row) then
      (some idx, owner2)
    else xlsxFindHeaderGo rest (idx + 1) owner2

/-- Fallback header discovery (mandiri-xlsx.py lines 73-78): the first
row whose first cell contains "tanggal". -/
def xlsxFallbackHeader : List (List Cell) → Nat → Option Nat
  | [], _ => none
  | row :: rest, idx =>
    if containsSub (lit "tanggal") (lowerStr (cellToStr (row.getD 0 Cell.empty))) then
      some idx
    else xlsxFallbackHeader rest (idx + 1)

/-- Column-role indices of the tabular grammar. -/
structure XlsxCols where
  dateIdx : Nat
  descIdx : Nat
  debitIdx : Nat
  creditIdx : Nat
  balIdx : Nat
deriving DecidableEq, Repr

/-- Column-role indices before the positional-default fallback. -/
structure XlsxColsOpt where
  dateIdx? : Option Nat
  descIdx? : Option Nat
  debitIdx? : Option Nat
  creditIdx? : Option Nat
  balIdx? : Option Nat
deriving DecidableEq, Repr

/-- One step of the header-cell keyword scan (mandiri-xlsx.py lines
116-122, the elif chain; later matches overwrite earlier ones). -/
def xlsxColStep (acc : XlsxColsOpt) (p : Nat × Cell) : XlsxColsOpt :=
  let v := lowerStr (cellToStr p.2)
  if containsSub (lit "tanggal") v then { acc with dateIdx? := some p.1 }
  else if containsSub (lit "uraian") v || containsSub (lit "keterangan") v then
    { acc with descIdx? := some p.1 }
  else if containsSub (lit "debet") v || containsSub (lit "debit") v ||
      containsSub (lit "dana keluar") v then { acc with debitIdx? := some p.1 }
  else if containsSub (lit "kredit") v || containsSub (lit "credit") v ||
      containsSub (lit "dana masuk") v then { acc with creditIdx? := some p.1 }
  else if containsSub (lit "saldo") v then { acc with balIdx? := some p.1 }
  else acc

/-- Column-role inference with the fixed positional fallbacks of
mandiri-xlsx.py lines 124-134 (date 4, description 7, credit 15,
debit 18, balance 21). -/
def xlsxInferCols (header : List Cell) : XlsxCols :=
  let o := header.enum.foldl xlsxColStep ⟨none, none, none, none, none⟩
  { dateIdx := o.dateIdx?.getD 4, descIdx := o.descIdx?.getD 7,
    debitIdx := o.debitIdx?.getD 18, creditIdx := o.creditIdx?.getD 15,
    balIdx := o.balIdx?.getD 21 }

/-- Date-cell handling of one data row (mandiri-xlsx.py lines 144-158):
a missing/blank/NaN cell or an unparseable date skips the row. -/
def xlsxRowDate (cols : XlsxCols) (row : List Cell) : Option PDate :=
  if row.length ≤ cols.dateIdx then none
  else if pdIsNa (row.getD cols.dateIdx Cell.empty) then none
  else
    match row.getD cols.dateIdx Cell.empty with
    | Cell.date d => some d
    | v =>
      if (pyStrip (cellToStr v)).isEmpty then none
      else if !pyDigit ((pyStrip (cellToStr v)).headD ' ') then none
      else pdToDatetime (pyStrip (cellToStr v))

/-- Parsed debit cell of a data row (0 when the column is out of range). -/
def xlsxRowDebit (cols : XlsxCols) (row : List Cell) : Rat :=
  if cols.debitIdx < row.length then
    xlsxParseAmount (row.getD cols.debitIdx Cell.empty)
  else 0

/-- Parsed credit cell of a data row (0 when the column is out of range). -/
def xlsxRowCredit (cols : XlsxCols) (row : List Cell) : Rat :=
  if cols.creditIdx < row.length then
    xlsxParseAmount (row.getD cols.creditIdx Cell.empty)
  else 0

/-- Parsed balance cell of a data row (0 when the column is out of range). -/
def xlsxRowBalance (cols : XlsxCols) (row : List Cell) : Rat :=
  if cols.balIdx < row.length then
    xlsxParseAmount (row.getD cols.balIdx Cell.empty)
  else 0

/-- Description cell of a data row (mandiri-xlsx.py lines 160-165):
strip, newlines to spaces, delete "nan", collapse whitespace. -/
def xlsxRowDesc (cols : XlsxCols) (row : List Cell) : Str :=
  if cols.descIdx < row.length then
    collapseWs (removeSub (lit "nan")
      ((pyStrip (cellToStr (row.getD cols.descIdx Cell.empty))).map
        (fun c => if c = '\n' then ' ' else c)))
  else []

/-- Amount/direction logic of one data row (mandiri-xlsx.py lines
167-205): `amount = max(debit, credit)`; DEBIT if debit > 0, else CREDIT
if credit > 0, else skip when the amount is zero too, else the DEBIT
fallback. -/
def xlsxRowFinish (cols : XlsxCols) (owner : Str) (row : List Cell)
    (txDate : PDate) : Option Transaction :=
  if 0 < xlsxRowDebit cols row then
    some { date := txDate, description := xlsxRowDesc cols row,
           amount := max (xlsxRowDebit cols row) (xlsxRowCredit cols row),
           type := lit "DEBIT", balance := xlsxRowBalance cols row,
           reference_no := [], bank_name := lit "Mandiri",
           account_owner := owner, currency := lit "IDR" }
  else if 0 < xlsxRowCredit cols row then
    some { date := txDate, description := xlsxRowDesc cols row,
           amount := max (xlsxRowDebit cols row) (xlsxRowCredit cols row),
           type := lit "CREDIT", balance := xlsxRowBalance cols row,
           reference_no := [], bank_name := lit "Mandiri",
           account_owner := owner, currency := lit "IDR" }
  else if max (xlsxRowDebit cols row) (xlsxRowCredit cols row) = 0 then none
  else
    some { date := txDate, description := xlsxRowDesc cols row,
           amount := max (xlsxRowDebit cols row) (xlsxRowCredit cols row),
           type := lit "DEBIT", balance := xlsxRowBalance cols row,
           reference_no := [], bank_name := lit "Mandiri",
           account_owner := owner, currency := lit "IDR" }

/-- One data row of the tabular grammar. -/
def xlsxRowTx (cols : XlsxCols) (owner : Str) (row : List Cell) :
    Option Transaction :=
  match xlsxRowDate cols row with
  | none => none
  | some d => xlsxRowFinish cols owner row d

/-- `MandiriXLSXParser.parse` over an already-extracted cell grid
(mandiri-xlsx.py lines 44-205).  The account-number extraction of lines
84-104 only sets parser metadata never copied into a transaction and is
omitted; the decryption plumbing of lines 20-43 is an out-of-scope
collaborator. -/
def mandiriXlsxParse (ownerInit : Str) (grid : List (List Cell)) :
    List Transaction :=
  match xlsxFindHeaderGo grid 0 ownerInit with
  | (some hdrIdx, owner) =>
    (grid.drop (hdrIdx + 1)).filterMap
      (xlsxRowTx (xlsxInferCols (grid.getD hdrIdx [])) owner)
  | (none, owner) =>
    match xlsxFallbackHeader grid 0 with
    | some hdrIdx =>
      (grid.drop (hdrIdx + 1)).filterMap
        (xlsxRowTx (xlsxInferCols (grid.getD hdrIdx [])) owner)
    | none => []

/-- The example grid of the tabular-grammar testable property: header
row `["Tanggal","Uraian","Debet","Kredit","Saldo"]` and one data row
`["01/03/2025","BIAYA ADM","",50000,950000]`. -/
def exGridC6 : List (List Cell) :=
  [ [Cell.str (lit "Tanggal"), Cell.str (lit "Uraian"), Cell.str (lit "Debet"),
     Cell.str (lit "Kredit"), Cell.str (lit "Saldo")],
    [Cell.str (lit "01/03/2025"), Cell.str (lit "BIAYA ADM"), Cell.str (lit ""),
     Cell.int 50000, Cell.int 950000] ]

/-- The transaction the tabular grammar produces for `exGridC6`. -/
def exTxC6 : Transaction :=
  { date := ⟨2025, 3, 1⟩, description := lit "BIAYA ADM",
    amount := 50000, type := lit "CREDIT", balance := 950000,
    reference_no := [], bank_name := lit "Mandiri",
    account_owner := lit "Owner", currency := lit "IDR" }

/-- A grid whose data row carries negative numbers in both the debit and
the credit cell (reachable input: `pandas` delivers whatever numbers the
sheet holds). -/
def exGridNeg : List (List Cell) :=
  [ [Cell.str (lit "Tanggal"), Cell.str (lit "Uraian"), Cell.str (lit "Debet"),
     Cell.str (lit "Kredit"), Cell.str (lit "Saldo")],
    [Cell.str (lit "01/03/2025"), Cell.str (lit "X"), Cell.int (-5),
     Cell.int (-3), Cell.int 100] ]

/-- The transaction the tabular grammar produces for `exGridNeg`: the
fallback branch emits a DEBIT with the negative amount `max(-5, -3)`. -/
def exTxNeg : Transaction :=
  { date := ⟨2025, 3, 1⟩, description := lit "X",
    amount := -3, type := lit "DEBIT", balance := 100,
    reference_no := [], bank_name := lit "Mandiri",
    account_owner := lit "Owner", currency := lit "IDR" }

/-- A span returned by `re.finditer`: start/stop offsets and the matched
token text. -/
structure MatchSpan where
  start : Nat
  stop : Nat
  tok : Str
deriving DecidableEq, Repr

/-- Fuel-indexed `re.finditer` driver: try the matcher at every
position, left to right, non-overlapping. -/
def scanAllGo (matcher : Str → Option (Nat × Str)) :
    Nat → Str → Nat → List MatchSpan
  | 0, _, _ => []
  | fuel + 1, s, pos =>
    match s with
    | [] => []
    | c :: t =>
      match matcher (c :: t) with
      | some (len, tok) =>
        ⟨pos, pos + len, tok⟩ :: scanAllGo matcher fuel ((c :: t).drop len) (pos + len)
      | none => scanAllGo matcher fuel t (pos + 1)

/-- `re.finditer` over a whole string. -/
def scanAll (matcher : Str → Option (Nat × Str)) (s : Str) : List MatchSpan :=
  scanAllGo matcher s.length s 0

/-- Regex class `[\d,]` of the BCA numeric-token pattern. -/
def digitComma (c : Char) : Bool := pyDigit c || c = ','

/-- Anchored match of the BCA numeric-token regex `([\d,]+\.\d{2})`: a
nonempty maximal digit/comma run, a dot, and exactly two decimal digits
(the greedy run cannot backtrack because `.` is outside the class). -/
def bcaMatchAt (s : Str) : Option (Nat × Str) :=
  if !(s.takeWhile digitComma).isEmpty &&
      ((s.drop (s.takeWhile digitComma).length).headD ' ' == '.') &&
      pyDigit ((s.drop (s.takeWhile digitComma).length).getD 1 ' ') &&
      pyDigit ((s.drop (s.takeWhile digitComma).length).getD 2 ' ') then
    some ((s.takeWhile digitComma).length + 3,
      s.takeWhile digitComma ++
        '.' :: (s.drop (s.takeWhile digitComma).length).getD 1 ' ' ::
          (s.drop (s.takeWhile digitComma).length).getD 2 ' ' :: [])
  else none

/-- All BCA numeric tokens of a transaction's accumulated content. -/
def bcaTokens (s : Str) : List MatchSpan := scanAll bcaMatchAt s

/-- `float(tok.replace(',', ''))` guarded by try/except (0.0 on failure). -/
def bcaTokenVal (tok : Str) : Rat :=
  (pyFloat? (tok.filter (fun c => c ≠ ','))).getD 0

/-- The 5-character window `content[e:e+5]` inspected for DB/CR markers. -/
def window5 (s : Str) (e : Nat) : Str := (s.drop e).take 5

/-- Amount extraction over a token list (bca-pdf.py lines 113-124): the
first numeric token's value, 0.0 when there is none. -/
def bcaAmountOf : List MatchSpan → Rat
  | [] => 0
  | m :: _ => bcaTokenVal m.tok

/-- Amount extraction of bca-pdf.py lines 113-124. -/
def bcaAmount (content : Str) : Rat := bcaAmountOf (bcaTokens content)

/-- Direction extraction over a token list (bca-pdf.py lines 126-134):
DEBIT when "DB" occurs within the 5 characters after the first token,
else CREDIT. -/
def bcaTypeOf (content : Str) : List MatchSpan → Str
  | [] => lit "CREDIT"
  | m :: _ =>
    if containsSub (lit "DB") (window5 content m.stop) then lit "DEBIT"
    else lit "CREDIT"

/-- Direction extraction of bca-pdf.py lines 126-134. -/
def bcaType (content : Str) : Str := bcaTypeOf content (bcaTokens content)

/-- Balance extraction over a token list (bca-pdf.py lines 136-159):
with two or more tokens the last one is the balance unless its
5-character window holds "DB" or "CR", in which case the second-to-last
is used given at least three tokens. -/
def bcaBalanceOf (content : Str) : List MatchSpan → Rat
  | [] => 0
  | m0 :: rest =>
    if 1 < (m0 :: rest).length then
      if !containsSub (lit "DB") (window5 content ((m0 :: rest).getLastD m0).stop) &&
          !containsSub (lit "CR") (window5 content ((m0 :: rest).getLastD m0).stop) then
        bcaTokenVal ((m0 :: rest).getLastD m0).tok
      else if 2 < (m0 :: rest).length then
        bcaTokenVal (((m0 :: rest).getD ((m0 :: rest).length - 2) m0).tok)
      else 0
    else 0

/-- Balance extraction of bca-pdf.py lines 136-159. -/
def bcaBalance (content : Str) : Rat := bcaBalanceOf content (bcaTokens content)

/-- Index of the first occurrence of `needle` (`str.find` on a string
known to contain it). -/
def subIndex (needle : Str) : Str → Nat
  | [] => 0
  | c :: t => if needle.isPrefixOf (c :: t) then 0 else subIndex needle t + 1

/-- One step of the description cleanup of bca-pdf.py lines 163-173:
remove the span of `m` from `clean`, extended past a "DB" marker found
in the original content's 5-character window after the token. -/
def bcaRemoveOne (content : Str) (clean : Str) (m : MatchSpan) : Str :=
  clean.take m.start ++
    clean.drop
      (if containsSub (lit "DB") (window5 content m.stop) then
        m.stop + subIndex (lit "DB") (window5 content m.stop) + 2
      else m.stop)

/-- The accumulated content with every numeric token (and trailing "DB"
marker) removed, in reverse span order as in the source. -/
def bcaStrippedContent (content : Str) : Str :=
  (bcaTokens content).reverse.foldl (bcaRemoveOne content) content

/-- The cleaned description: token removal, whitespace collapse, strip
(bca-pdf.py lines 161-177). -/
def bcaCleanDesc (content : Str) : Str :=
  pyStrip (collapseWs (bcaStrippedContent content))

/-- Regex class `[A-Z0-9]` of the reference-number pattern. -/
def isUpperAlnum (c : Char) : Bool := ('A' ≤ c && c ≤ 'Z') || pyDigit c

/-- Anchored match of `\b\d{4}/[A-Z0-9]+/[A-Z0-9]+\b` (bca-pdf.py line
182); `prevIsWord` carries the word-boundary state. -/
def refMatchAt (prevIsWord : Bool) (s : Str) : Option Str :=
  if prevIsWord then none
  else
    match s with
    | a :: b :: c :: d :: '/' :: rest =>
      if pyDigit a && pyDigit b && pyDigit c && pyDigit d then
        match rest.dropWhile isUpperAlnum with
        | '/' :: rest3 =>
          if !(rest.takeWhile isUpperAlnum).isEmpty &&
              !(rest3.takeWhile isUpperAlnum).isEmpty &&
              !pyWord ((rest3.dropWhile isUpperAlnum).headD ' ') then
            some (a :: b :: c :: d :: '/' ::
              (rest.takeWhile isUpperAlnum ++ '/' :: rest3.takeWhile isUpperAlnum))
          else none
        | _ => none
      else none
    | _ => none

/-- `re.search` for the reference-number pattern. -/
def refSearchGo (prev : Bool) : Str → Option Str
  | [] => none
  | c :: t =>
    match refMatchAt prev (c :: t) with
    | some r => some r
    | none => refSearchGo (pyWord c) t

/-- Reference number of a cleaned description; empty when absent. -/
def bcaRefNo (desc : Str) : Str := (refSearchGo false desc).getD []

/-- Anchored match of `SALDO\s+AWAL\s*:?\s*([\d,]+\.?\d*)` (IGNORECASE),
returning the captured group. -/
def saldoAwalAt (s : Str) : Option Str :=
  if ciPrefix (lit "saldo") s then
    if ((s.drop 5).takeWhile pySpace).isEmpty then none
    else
      match (fun r2 => if ciPrefix (lit "awal") r2 then
          some ((r2.drop 4).dropWhile pySpace) else none)
        ((s.drop 5).dropWhile pySpace) with
      | none => none
      | some r3 =>
        match (if r3.head? == some ':' then r3.tail.dropWhile pySpace else r3) with
        | r4 =>
          if (r4.takeWhile (fun c => pyDigit c || c = ',')).isEmpty then none
          else
            match r4.drop (r4.takeWhile (fun c => pyDigit c || c = ',')).length with
            | '.' :: r6 =>
              some (r4.takeWhile (fun c => pyDigit c || c = ',') ++
                '.' :: r6.takeWhile pyDigit)
            | _ => some (r4.takeWhile (fun c => pyDigit c || c = ','))
  else none

/-- `re.search` for the opening-balance banner of bca-pdf.py line 19. -/
def searchSaldoAwal : Str → Option Str
  | [] => none
  | c :: t =>
    match saldoAwalAt (c :: t) with
    | some g => some g
    | none => searchSaldoAwal t

/-- The discovered opening balance: `float(group.replace(',', ''))`,
with the bare except of lines 22-26 collapsing failures to 0.0. -/
def bcaSaldoVal (p0 : Str) : Rat :=
  match searchSaldoAwal p0 with
  | none => 0
  | some g => (pyFloat? (g.filter (fun c => c ≠ ','))).getD 0

/-- Anchored match of `PERIODE\s*:\s*\w+\s+(\d{4})` (IGNORECASE),
returning the captured year. -/
def periodeAt (s : Str) : Option Nat :=
  if ciPrefix (lit "periode") s then
    match (s.drop 7).dropWhile pySpace with
    | ':' :: r1 =>
      match (fun r2 => (r2.takeWhile pyWord, r2.drop (r2.takeWhile pyWord).length))
        (r1.dropWhile pySpace) with
      | (w, r3) =>
        if w.isEmpty then none
        else if (r3.takeWhile pySpace).isEmpty then none
        else
          match (r3.dropWhile pySpace).take 4 with
          | ds => if ds.length == 4 && ds.all pyDigit then some (digitsVal ds) else none
    | _ => none
  else none

/-- `re.search` for the statement-year banner of bca-pdf.py line 29. -/
def searchPeriode : Str → Option Nat
  | [] => none
  | c :: t =>
    match periodeAt (c :: t) with
    | some y => some y
    | none => searchPeriode t

/-- Anchored match of the owner anchor `\s+NO\.?\s*REKENING` (IGNORECASE)
of bca-pdf.py line 35. -/
def noRekAnchorAt (s : Str) : Bool :=
  if (s.takeWhile pySpace).isEmpty then false
  else
    (fun r =>
      if ciPrefix (lit "no") r then
        ciPrefix (lit "rekening")
          ((if (r.drop 2).head? == some '.' then (r.drop 2).tail else r.drop 2).dropWhile
            pySpace)
      else false)
      (s.dropWhile pySpace)

/-- `re.search(r'(.*?)\s+NO\.?\s*REKENING', ...)`: the lazy group is the
current line's prefix before the earliest anchor (`.` cannot cross a
newline). -/
def searchNoRek (curLine : Str) : Str → Option Str
  | [] => none
  | c :: t =>
    if noRekAnchorAt (c :: t) then some curLine
    else searchNoRek (if c = '\n' then [] else curLine ++ [c]) t

/-- Anchored match of the fallback owner pattern `NAMA\s*:\s*(.*)`
(IGNORECASE) of bca-pdf.py line 40. -/
def namaColonAt (s : Str) : Option Str :=
  if ciPrefix (lit "nama") s then
    match (s.drop 4).dropWhile pySpace with
    | ':' :: r =>
      some ((r.dropWhile pySpace).takeWhile (fun ch => ch ≠ '\n'))
    | _ => none
  else none

/-- `re.search` for the fallback owner pattern. -/
def searchNamaColon : Str → Option Str
  | [] => none
  | c :: t =>
    match namaColonAt (c :: t) with
    | some g => some g
    | none => searchNamaColon t

/-- Transaction-start match `^(\d{2}/\d{2})\s+(.+)` of bca-pdf.py line
60: day/month digits, at least one space, and a non-empty remainder
(when the line ends in 2+ spaces, backtracking leaves a single-space
remainder, as in the regex engine). -/
def bcaDateStart (line : Str) : Option (Nat × Nat × Str) :=
  match line with
  | d1 :: d2 :: '/' :: m1 :: m2 :: rest =>
    if pyDigit d1 && pyDigit d2 && pyDigit m1 && pyDigit m2 then
      if (rest.takeWhile pySpace).isEmpty then none
      else if !(rest.dropWhile pySpace).isEmpty then
        some (digitsVal [d1, d2], digitsVal [m1, m2], rest.dropWhile pySpace)
      else if 2 ≤ (rest.takeWhile pySpace).length then
        some (digitsVal [d1, d2], digitsVal [m1, m2], [' '])
      else none
    else none
  | _ => none

/-- The lighter `^\d{2}/\d{2}\s+` test used as the inner-loop break
condition (bca-pdf.py line 82). -/
def bcaDateStartBool (line : Str) : Bool :=
  match line with
  | d1 :: d2 :: '/' :: m1 :: m2 :: sp :: _ =>
    pyDigit d1 && pyDigit d2 && pyDigit m1 && pyDigit m2 && pySpace sp
  | _ => false

/-- Transaction-date construction of bca-pdf.py lines 66-73: invalid
day/month combinations fall back to January 1st; a year outside the
`datetime` range makes even the fallback raise (`none`). -/
def bcaMkDate (year month day : Nat) : Option PDate :=
  match tryMkDate year month day with
  | some d => some d
  | none => tryMkDate year 1 1

/-- Content-line accumulation of bca-pdf.py lines 79-96: stop at a new
date line or a SALDO AWAL/AKHIR banner, skip noise headers, append
everything else; returns the collected lines and the next index. -/
def bcaCollect (lines : List Str) : Nat → Nat → List Str → List Str × Nat
  | 0, i, acc => (acc.reverse, i)
  | fuel + 1, i, acc =>
    if i < lines.length then
      (fun nl =>
        if bcaDateStartBool nl then (acc.reverse, i)
        else if (containsSub (lit "BERSAMBUNG") (upperStr nl) ||
              containsSub (lit "SALDO") (upperStr nl)) &&
            (containsSub (lit "SALDO AWAL") nl ||
              containsSub (lit "SALDO AKHIR") nl) then
          (acc.reverse, i)
        else if containsSub (lit "KETERANGAN") nl ||
            containsSub (lit "TANGGAL") nl ||
            containsSub (lit "MUTASI") nl ||
            containsSub (lit "REKENING TAHAPAN") nl ||
            containsSub (lit "PERIODE") nl then
          bcaCollect lines fuel (i + 1) acc
        else bcaCollect lines fuel (i + 1) (nl :: acc))
        (pyStrip (lines.getD i []))
    else (acc.reverse, i)

/-- Running-balance reconciliation of bca-pdf.py lines 198-209: returns
the new accumulator and the transaction's final balance.  A missing
balance with a discovered opening balance is back-filled from the
accumulator (minus the amount for DEBIT, plus for CREDIT); an explicit
positive balance hard-sets the accumulator. -/
def bcaReconcile (opening running amount : Rat) (txType : Str)
    (balance : Rat) : Rat × Rat :=
  if balance = 0 ∧ 0 < opening then
    (if txType == lit "DEBIT" then
      (rSub running amount, rSub running amount)
    else (rAdd running amount, rAdd running amount))
  else (if 0 < balance then balance else running, balance)

/-- The per-page line loop of `BCAPDFParser.parse` (bca-pdf.py lines
56-214), fuel-indexed; threads the running balance and the accumulated
transactions (newest first). -/
def bcaLoop (year : Nat) (owner : Str) (opening : Rat) (lines : List Str) :
    Nat → Nat → Rat → List Transaction → Option (Rat × List Transaction)
  | 0, _, running, acc => some (running, acc)
  | fuel + 1, i, running, acc =>
    if i < lines.length then
      match bcaDateStart (pyStrip (lines.getD i [])) with
      | some (day, month, rest) =>
        if !containsSub (lit "SALDO AWAL") (pyStrip (lines.getD i [])) then
          match bcaMkDate year month day with
          | none => none
          | some txDate =>
            match bcaCollect lines (lines.length + 1) (i + 1) [] with
            | (collected, i2) =>
              (fun content =>
                (fun rb =>
                  bcaLoop year owner opening lines fuel i2 rb.1
                    ({ date := txDate,
                       description := bcaCleanDesc content,
                       amount := bcaAmount content,
                       type := bcaType content,
                       balance := rb.2,
                       reference_no := bcaRefNo (bcaCleanDesc content),
                       bank_name := lit "BCA",
                       account_owner := owner, currency := lit "IDR" } :: acc))
                  (bcaReconcile opening running (bcaAmount content)
                    (bcaType content) (bcaBalance content)))
                (List.intercalate [' '] (rest :: collected))
        else bcaLoop year owner opening lines fuel (i + 1) running acc
      | none => bcaLoop year owner opening lines fuel (i + 1) running acc
    else some (running, acc)

/-- The page loop of `BCAPDFParser.parse`: empty page text is skipped;
the running balance and the transaction list persist across pages. -/
def bcaPages (year : Nat) (owner : Str) (opening : Rat) :
    List Str → Rat → List Transaction → Option (Rat × List Transaction)
  | [], running, acc => some (running, acc)
  | p :: ps, running, acc =>
    if p.isEmpty then bcaPages year owner opening ps running acc
    else
      match bcaLoop year owner opening (splitOnChar '\n' p)
        ((splitOnChar '\n' p).length + 1) 0 running acc with
      | none => none
      | some (r2, acc2) => bcaPages year owner opening ps r2 acc2

/-- The owner-name extraction of bca-pdf.py lines 33-42 (two
keyword-anchored patterns, first match wins; `ownerInit` is the
constructor argument kept when neither matches). -/
def bcaOwner (ownerInit : Str) (p0 : Str) : Str :=
  match searchNoRek [] p0 with
  | some g => pyStrip g
  | none =>
    match searchNamaColon p0 with
    | some g => pyStrip g
    | none => ownerInit

/-- `BCAPDFParser.parse` over already-extracted page texts.  `nowYear`
models `datetime.now().year` (bca-pdf.py line 10); an empty page list
would raise IndexError at `pdf.pages[0]` in the source and yields no
transactions here; `none` models the uncaught `ValueError` of the
year-out-of-range date fallback.  The account-number extraction of line
45 only sets parser metadata never copied into a transaction and is
omitted. -/
def bcaParse (nowYear : Nat) (ownerInit : Str) (pages : List Str) :
    Option (List Transaction) :=
  match pages with
  | [] => some []
  | p0 :: _ =>
    match bcaPages
      (if p0.isEmpty then nowYear else (searchPeriode p0).getD nowYear)
      (if p0.isEmpty then ownerInit else bcaOwner ownerInit p0)
      (if p0.isEmpty then 0 else bcaSaldoVal p0)
      pages
      (if p0.isEmpty then 0 else bcaSaldoVal p0) [] with
    | none => none
    | some (_, acc) => some acc.reverse

/-- First page of the Grammar-A example: a PERIODE banner carrying the
statement year 2025, and the single transaction line of the testable
property. -/
def exPageC3 : Str :=
  lit "PERIODE : FEBRUARI 2025\n01/02 TRANSFER DANA 106,161.00 DB 500,000.00"

/-- The transaction the BCA grammar produces for `exPageC3`. -/
def exTxC3 : Transaction :=
  { date := ⟨2025, 2, 1⟩, description := lit "TRANSFER DANA",
    amount := 106161, type := lit "DEBIT", balance := 500000,
    reference_no := [], bank_name := lit "BCA",
    account_owner := lit "Owner", currency := lit "IDR" }

/-- The accumulated content of the `exPageC3` transaction line. -/
def contentC3 : Str := lit "TRANSFER DANA 106,161.00 DB 500,000.00"

/-- A BCA page with no `PERIODE : <month> <year>` banner: the statement
year falls back to the system clock's year. -/
def exPageC10 : Str := lit "01/02 STUFF 1,000.00"

/-- The CIMB month-abbreviation table (cimb-pdf.py lines 12-17 together
with the regex alternation of line 49; the `.title()` lookup makes the
case-insensitive match yield the month number directly). -/
def cimbMonthNum (s : Str) : Option Nat :=
  (([(lit "jan", 1), (lit "feb", 2), (lit "mar", 3), (lit "apr", 4),
     (lit "may", 5), (lit "jun", 6), (lit "jul", 7), (lit "aug", 8),
     (lit "sep", 9), (lit "oct", 10), (lit "nov", 11), (lit "dec", 12)].find?
    (fun p => p.1 == lowerStr s))).map (·.2)

/-- Anchored match of the CIMB transaction-start regex
`^(\d{2})\s+(Jan|...|Dec)\s+(\d{4})` (IGNORECASE): returns day, month
number, year and the offset of the regex match end. -/
def cimbDateMatch (line : Str) : Option (Nat × Nat × Nat × Nat) :=
  match line with
  | d1 :: d2 :: rest =>
    if pyDigit d1 && pyDigit d2 then
      if (rest.takeWhile pySpace).isEmpty then none
      else
        match cimbMonthNum ((rest.dropWhile pySpace).take 3) with
        | none => none
        | some mn =>
          (fun r2 =>
            if (r2.takeWhile pySpace).isEmpty then none
            else if ((r2.dropWhile pySpace).take 4).length == 4 &&
                ((r2.dropWhile pySpace).take 4).all pyDigit then
              some (digitsVal [d1, d2], mn,
                digitsVal ((r2.dropWhile pySpace).take 4),
                2 + (rest.takeWhile pySpace).length + 3 +
                  (r2.takeWhile pySpace).length + 4)
            else none)
            ((rest.dropWhile pySpace).drop 3)
    else none
  | _ => none

/-- Anchored match of the CIMB signed-token regex `(-?[\d,]+\.\d{2})`:
an optional leading '-' followed by the BCA token core (an unmatched
core after the dash cannot fall back to matching at the dash itself). -/
def cimbMatchAt (s : Str) : Option (Nat × Str) :=
  match s with
  | c :: t =>
    if c = '-' then
      match bcaMatchAt t with
      | some (len, tok) => some (len + 1, '-' :: tok)
      | none => none
    else bcaMatchAt (c :: t)
  | [] => bcaMatchAt []

/-- All signed-decimal tokens of the rest of a CIMB start line. -/
def cimbTokens (rest : Str) : List MatchSpan := scanAll cimbMatchAt rest

/-- The `neg_found` scan of cimb-pdf.py lines 86-93: the first token
whose text starts with '-'. -/
def cimbFirstNeg : List MatchSpan → Option MatchSpan
  | [] => none
  | m :: ms => if m.tok.head? == some '-' then some m else cimbFirstNeg ms

/-- Amount and direction of cimb-pdf.py lines 82-99: the first negative
token's absolute value marks DEBIT; otherwise the first token marks
CREDIT (`float` cannot fail on a matched token; the shared guarded
parser is used). -/
def cimbAmountType (ms : List MatchSpan) : Rat × Str :=
  match cimbFirstNeg ms with
  | some m => (|bcaTokenVal m.tok|, lit "DEBIT")
  | none =>
    match ms with
    | [] => (0, lit "CREDIT")
    | m :: _ => (bcaTokenVal m.tok, lit "CREDIT")

/-- Balance of cimb-pdf.py lines 101-109: with more than one token, the
last token (when its start differs from the first token's) is parsed as
the balance under try/except. -/
def cimbBalanceOf : List MatchSpan → Rat
  | [] => 0
  | m :: rest =>
    if 0 < rest.length then
      if ((m :: rest).getLastD m).start ≠ m.start then
        bcaTokenVal ((m :: rest).getLastD m).tok
      else 0
    else 0

/-- Token-span removal from the start line (cimb-pdf.py lines 118-121). -/
def cimbStripSpans (rest : Str) (ms : List MatchSpan) : Str :=
  ms.reverse.foldl (fun clean m => clean.take m.start ++ clean.drop m.stop) rest

/-- Description accumulation of cimb-pdf.py lines 126-136: stop at a new
date-start line or a Page/Saldo Awal/Saldo Akhir banner. -/
def cimbCollect (lines : List Str) : Nat → Nat → List Str → List Str × Nat
  | 0, i, acc => (acc.reverse, i)
  | fuel + 1, i, acc =>
    if i < lines.length then
      (fun nl =>
        if (cimbDateMatch nl).isSome then (acc.reverse, i)
        else if (containsSub (lit "Page") nl || containsSub (lit "Saldo") nl) &&
            (containsSub (lit "Saldo Awal") nl ||
              containsSub (lit "Saldo Akhir") nl) then
          (acc.reverse, i)
        else cimbCollect lines fuel (i + 1) (nl :: acc))
        (pyStrip (lines.getD i []))
    else (acc.reverse, i)

/-- The per-page line loop of `CIMBPDFParser.parse` (cimb-pdf.py lines
42-156); `none` models the uncaught `ValueError` of the unguarded
`datetime` constructor at line 57. -/
def cimbLoop (owner : Str) (lines : List Str) :
    Nat → Nat → List Transaction → Option (List Transaction)
  | 0, _, acc => some acc
  | fuel + 1, i, acc =>
    if i < lines.length then
      match cimbDateMatch (pyStrip (lines.getD i [])) with
      | some (day, month, yearVal, endOfs) =>
        if !containsSub (lit "SALDO AWAL") (pyStrip (lines.getD i [])) then
          match tryMkDate yearVal month day with
          | none => none
          | some txDate =>
            (fun rest =>
              (fun ms =>
                (fun collected =>
                  cimbLoop owner lines fuel collected.2
                    ({ date := txDate,
                       description := pyStrip (collapseWs
                         (List.intercalate [' ']
                           (pyStrip (cimbStripSpans rest ms) :: collected.1))),
                       amount := (cimbAmountType ms).1,
                       type := (cimbAmountType ms).2,
                       balance := cimbBalanceOf ms,
                       reference_no := [], bank_name := lit "CIMB",
                       account_owner := owner, currency := lit "IDR" } :: acc))
                  (cimbCollect lines (lines.length + 1) (i + 1) []))
                (cimbTokens rest))
              (pyStrip ((pyStrip (lines.getD i [])).drop endOfs))
        else cimbLoop owner lines fuel (i + 1) acc
      | none => cimbLoop owner lines fuel (i + 1) acc
    else some acc

/-- Anchored match of the CIMB owner pattern `(?:Name|Nama)\s*:\s*(.*)`
(IGNORECASE) of cimb-pdf.py line 32. -/
def cimbNameAt (s : Str) : Option Str :=
  if ciPrefix (lit "name") s || ciPrefix (lit "nama") s then
    match (s.drop 4).dropWhile pySpace with
    | ':' :: r => some ((r.dropWhile pySpace).takeWhile (fun ch => ch ≠ '\n'))
    | _ => none
  else none

/-- `re.search` for the CIMB owner pattern. -/
def searchCimbName : Str → Option Str
  | [] => none
  | c :: t =>
    match cimbNameAt (c :: t) with
    | some g => some g
    | none => searchCimbName t

/-- Owner extraction of cimb-pdf.py lines 30-35 (first line of the
captured group, stripped; the constructor argument is kept otherwise). -/
def cimbOwner (ownerInit : Str) (p0 : Str) : Str :=
  match searchCimbName p0 with
  | some g => pyStrip g
  | none => ownerInit

/-- The page loop of `CIMBPDFParser.parse`. -/
def cimbPages (owner : Str) : List Str → List Transaction →
    Option (List Transaction)
  | [], acc => some acc
  | p :: ps, acc =>
    if p.isEmpty then cimbPages owner ps acc
    else
      match cimbLoop owner (splitOnChar '\n' p)
        ((splitOnChar '\n' p).length + 1) 0 acc with
      | none => none
      | some acc2 => cimbPages owner ps acc2

/-- `CIMBPDFParser.parse` over already-extracted page texts.  The
account-number extraction of lines 26-28 only sets parser metadata never
copied into a transaction and is omitted; an empty page list would raise
IndexError at `pdf.pages[0]` in the source and yields no transactions
here.  The `year` variable of line 10 is never read. -/
def cimbParse (ownerInit : Str) (pages : List Str) :
    Option (List Transaction) :=
  match pages with
  | [] => some []
  | p0 :: _ =>
    match cimbPages (cimbOwner ownerInit p0) pages [] with
    | none => none
    | some acc => some acc.reverse

/-- The Grammar-B example page. -/
def exPageC4 : Str := lit "01 Jan 2025 OVERBOOKING REF123 -100,000.00 400,000.00"

/-- The transaction the CIMB grammar produces for `exPageC4`. -/
def exTxC4 : Transaction :=
  { date := ⟨2025, 1, 1⟩, description := lit "OVERBOOKING REF123",
    amount := 100000, type := lit "DEBIT", balance := 400000,
    reference_no := [], bank_name := lit "CIMB",
    account_owner := lit "Owner", currency := lit "IDR" }

/-- A CIMB page whose header carries an opening-balance banner (in the
very format the shared discovery regex of bca-pdf.py line 19 matches)
followed by a transaction line with no balance token. -/
def exPageC2 : Str := lit "Saldo Awal : 1,000,000.00\n01 Jan 2025 TRANSFER 50,000.00"

/-- The transaction the CIMB grammar produces for `exPageC2`: the
missing balance stays 0 — no back-fill happens. -/
def exTxC2 : Transaction :=
  { date := ⟨2025, 1, 1⟩, description := lit "TRANSFER",
    amount := 50000, type := lit "CREDIT", balance := 0,
    reference_no := [], bank_name := lit "CIMB",
    account_owner := lit "Owner", currency := lit "IDR" }

/-- A Mandiri-PDF page whose header carries the same opening-balance
banner, followed by a transaction whose amount line has no balance
token (only one token matches the amount pattern). -/
def exPageC2M : Str :=
  lit "Saldo Awal : 1,000,000.00\nTRANSFER MASUK\n01 Mar 2025\n..,12 3,45"

/-- Anchored match of the Mandiri transaction-start regex
`^(\d{2})\s+(\w+)\s+(\d{4})` (mandiri-pdf.py line 58): returns the
day/month/year capture strings and the offset of the match end. -/
def mdDateMatch (line : Str) : Option (Str × Str × Str × Nat) :=
  match line with
  | d1 :: d2 :: rest =>
    if pyDigit d1 && pyDigit d2 then
      if (rest.takeWhile pySpace).isEmpty then none
      else if ((rest.dropWhile pySpace).takeWhile pyWord).isEmpty then none
      else
        (fun w r2 =>
          if (r2.takeWhile pySpace).isEmpty then none
          else if ((r2.dropWhile pySpace).take 4).length == 4 &&
              ((r2.dropWhile pySpace).take 4).all pyDigit then
            some ([d1, d2], w, (r2.dropWhile pySpace).take 4,
              2 + (rest.takeWhile pySpace).length + w.length +
                (r2.takeWhile pySpace).length + 4)
          else none)
          ((rest.dropWhile pySpace).takeWhile pyWord)
          ((rest.dropWhile pySpace).dropWhile pyWord)
    else none
  | _ => none

/-- Model of `datetime.strptime(f"{d} {m} {y}", "%d %b %Y")` on the
captured groups: `%d` accepts day values 1-31, `%b` the case-insensitive
C-locale month abbreviations, `%Y` the four digits already captured; the
constructor then validates the calendar date (mandiri-pdf.py line 66). -/
def mdStrptime (dayS monthS yearS : Str) : Option PDate :=
  match cimbMonthNum monthS with
  | none => none
  | some mn =>
    if 1 ≤ digitsVal dayS && digitsVal dayS ≤ 31 then
      tryMkDate (digitsVal yearS) mn (digitsVal dayS)
    else none

/-- The `(?:\.\d{3})*` group consumption of the Mandiri amount pattern:
consumed length of the maximal run of dot-plus-three-digit groups
(giving a group back can never help, since a comma check then lands on
the dot). -/
def mdGroupsGo : Nat → Str → Nat
  | 0, _ => 0
  | fuel + 1, s =>
    match s with
    | '.' :: a :: b :: c :: t =>
      if pyDigit a && pyDigit b && pyDigit c then 4 + mdGroupsGo fuel t
      else 0
    | _ => 0

/-- Anchored match of the unsigned core `\d{1,3}(?:\.\d{3})*,\d{2}` of
the Mandiri amount pattern: fails when the leading digit run exceeds
three digits (the engine cannot shorten it, as the next atom would then
meet a digit). -/
def mdCoreAt (s : Str) : Option Nat :=
  if (s.takeWhile pyDigit).isEmpty || 3 < (s.takeWhile pyDigit).length then none
  else
    (fun d g =>
      match s.drop (d + g) with
      | ',' :: a :: b :: _ => if pyDigit a && pyDigit b then some (d + g + 3) else none
      | _ => none)
      (s.takeWhile pyDigit).length
      (mdGroupsGo s.length (s.drop (s.takeWhile pyDigit).length))

/-- Anchored match of `([+-]?\d{1,3}(?:\.\d{3})*,\d{2})` (mandiri-pdf.py
line 101). -/
def mdMatchAt (s : Str) : Option (Nat × Str) :=
  match s with
  | c :: t =>
    if c = '+' || c = '-' then
      match mdCoreAt t with
      | some len => some (len + 1, c :: t.take len)
      | none => none
    else
      match mdCoreAt (c :: t) with
      | some len => some (len, (c :: t).take len)
      | none => none
  | [] => none

/-- All Mandiri amount tokens of a line. -/
def mdTokens (line : Str) : List MatchSpan := scanAll mdMatchAt line

/-- Anchored match of the amount-line precheck
`[\d.]+,\d{2}\s+[\d.]+,\d{2}` (mandiri-pdf.py line 100). -/
def mdPrecheckAt (s : Str) : Bool :=
  if (s.takeWhile (fun c => pyDigit c || c = '.')).isEmpty then false
  else
    match s.drop (s.takeWhile (fun c => pyDigit c || c = '.')).length with
    | ',' :: a :: b :: r2 =>
      if pyDigit a && pyDigit b then
        if (r2.takeWhile pySpace).isEmpty then false
        else
          (fun r3 =>
            if (r3.takeWhile (fun c => pyDigit c || c = '.')).isEmpty then false
            else
              match r3.drop (r3.takeWhile (fun c => pyDigit c || c = '.')).length with
              | ',' :: c2 :: e2 :: _ => pyDigit c2 && pyDigit e2
              | _ => false)
            (r2.dropWhile pySpace)
      else false
    | _ => false

/-- `re.search` for the amount-line precheck. -/
def mdPrecheck : Str → Bool
  | [] => false
  | c :: t => mdPrecheckAt (c :: t) || mdPrecheck t

/-- `re.sub(r'^(\d{1,2})\s+', '', ...)` (mandiri-pdf.py line 106): one
or two leading digits directly followed by whitespace are removed. -/
def stripLeadDay (s : Str) : Str :=
  match s with
  | a :: b :: t =>
    if pyDigit a && pyDigit b && !(t.takeWhile pySpace).isEmpty then
      t.dropWhile pySpace
    else if pyDigit a && pySpace b then (b :: t).dropWhile pySpace
    else s
  | _ => s

/-- `re.match(r'^\d+$', s)` as a test. -/
def isAllDigits (s : Str) : Bool := !s.isEmpty && s.all pyDigit

/-- Anchored match of `^(\d{2}:\d{2}:\d{2}\s+WIB)\s+(.*)` (mandiri-pdf.py
line 121): returns the trailing group. -/
def mdTsWithTail (s : Str) : Option Str :=
  match s with
  | a :: b :: ':' :: c :: d :: ':' :: e :: f :: t =>
    if pyDigit a && pyDigit b && pyDigit c && pyDigit d &&
        pyDigit e && pyDigit f then
      if (t.takeWhile pySpace).isEmpty then none
      else if (lit "WIB").isPrefixOf (t.dropWhile pySpace) then
        (fun r2 =>
          if (r2.takeWhile pySpace).isEmpty then none
          else some (r2.dropWhile pySpace))
          ((t.dropWhile pySpace).drop 3)
      else none
    else none
  | _ => none

/-- `re.match(r'^\d{2}:\d{2}:\d{2}', s)` as a test (line 127). -/
def mdTsBare (s : Str) : Bool :=
  match s with
  | a :: b :: ':' :: c :: d :: ':' :: e :: f :: _ =>
    pyDigit a && pyDigit b && pyDigit c && pyDigit d && pyDigit e && pyDigit f
  | _ => false

/-- The `startswith` tuple of mandiri-pdf.py line 131. -/
def mdRefStarts (s : Str) : Bool :=
  (lit "Pembayaran").isPrefixOf s || (lit "Transfer").isPrefixOf s ||
  (lit "PT Bank").isPrefixOf s || (lit "e-Statement").isPrefixOf s ||
  (lit "No ").isPrefixOf s

/-- `re.sub(r'^\d+\s+', '', s)` (mandiri-pdf.py line 140). -/
def stripLeadNum (s : Str) : Str :=
  if (s.takeWhile pyDigit).isEmpty then s
  else
    (fun r =>
      if (r.takeWhile pySpace).isEmpty then s else r.dropWhile pySpace)
      (s.drop (s.takeWhile pyDigit).length)

/-- Anchored match of `\d{2}:\d{2}:\d{2}\s+WIB\s*` for the global
removal of mandiri-pdf.py line 141. -/
def mdWibMatchAt (s : Str) : Option (Nat × Str) :=
  match s with
  | a :: b :: ':' :: c :: d :: ':' :: e :: f :: t =>
    if pyDigit a && pyDigit b && pyDigit c && pyDigit d &&
        pyDigit e && pyDigit f then
      if (t.takeWhile pySpace).isEmpty then none
      else if (lit "WIB").isPrefixOf (t.dropWhile pySpace) then
        some (8 + (t.takeWhile pySpace).length + 3 +
          (((t.dropWhile pySpace).drop 3).takeWhile pySpace).length, [])
      else none
    else none
  | _ => none

/-- Fuel-indexed global `re.sub(pattern, '', s)` driver. -/
def removeAllMatches (matcher : Str → Option (Nat × Str)) : Nat → Str → Str
  | 0, s => s
  | fuel + 1, s =>
    match s with
    | [] => []
    | c :: t =>
      match matcher (c :: t) with
      | some (len, _) => removeAllMatches matcher fuel ((c :: t).drop len)
      | none => c :: removeAllMatches matcher fuel t

/-- Global `re.sub(pattern, '', s)`. -/
def subRemove (matcher : Str → Option (Nat × Str)) (s : Str) : Str :=
  removeAllMatches matcher s.length s

/-- A case-insensitive literal followed by `\s+`; returns the rest. -/
def ciLitSp (word s : Str) : Option Str :=
  if ciPrefix word s then
    (fun r =>
      if (r.takeWhile pySpace).isEmpty then none else some (r.dropWhile pySpace))
      (s.drop word.length)
  else none

/-- Regex fragment `\(\w+\)`; returns the rest. -/
def mdParen (s : Str) : Option Str :=
  match s with
  | '(' :: t =>
    if (t.takeWhile pyWord).isEmpty then none
    else
      match t.drop (t.takeWhile pyWord).length with
      | ')' :: r => some r
      | _ => none
  | _ => none

/-- Anchored match of the column-header banner
`^No\s+Date\s+Remarks\s+Amount\s+\(\w+\)\s+Balance\s+\(\w+\)\s*`
(IGNORECASE, mandiri-pdf.py line 142); returns the rest after removal. -/
def mdBannerRest (s : Str) : Option Str :=
  (ciLitSp (lit "No") s).bind fun r1 =>
  (ciLitSp (lit "Date") r1).bind fun r2 =>
  (ciLitSp (lit "Remarks") r2).bind fun r3 =>
  (ciLitSp (lit "Amount") r3).bind fun r4 =>
  (mdParen r4).bind fun r5 =>
  (if (r5.takeWhile pySpace).isEmpty then none
   else some (r5.dropWhile pySpace)).bind fun r6 =>
  (if ciPrefix (lit "Balance") r6 then some (r6.drop 7) else none).bind fun r7 =>
  (if (r7.takeWhile pySpace).isEmpty then none
   else some (r7.dropWhile pySpace)).bind fun r8 =>
  (mdParen r8).map fun r9 => r9.dropWhile pySpace

/-- The banner substitution of mandiri-pdf.py line 142. -/
def mdBannerStrip (s : Str) : Str := (mdBannerRest s).getD s

/-- Lazy search for the tail `4\s+of\s+7` (IGNORECASE) of the
page-counter pattern; returns the rest after the earliest occurrence. -/
def search447 : Str → Option Str
  | [] => none
  | c :: t =>
    match
      (if c = '4' then
        (if (t.takeWhile pySpace).isEmpty then none
         else if ciPrefix (lit "of") (t.dropWhile pySpace) then
          (fun r2 =>
            if (r2.takeWhile pySpace).isEmpty then none
            else
              match r2.dropWhile pySpace with
              | '7' :: rest => some rest
              | _ => none)
            ((t.dropWhile pySpace).drop 2)
         else none)
      else none) with
    | some rest => some rest
    | none => search447 t

/-- Backtracking over the second `\d+` of the page-counter pattern
(greedy, longest first), then the lazy tail search. -/
def mdDariTail : Nat → Str → Option Str
  | 0, _ => none
  | k + 1, r4 =>
    match search447 (r4.drop (k + 1)) with
    | some rest => some rest
    | none => mdDariTail k r4

/-- Anchored match of `^\d+\s+dari\s+\d+.*?4\s+of\s+7` (IGNORECASE,
mandiri-pdf.py line 143); returns the rest after removal. -/
def mdDariAt (s : Str) : Option Str :=
  if (s.takeWhile pyDigit).isEmpty then none
  else
    (fun r1 =>
      if (r1.takeWhile pySpace).isEmpty then none
      else if ciPrefix (lit "dari") (r1.dropWhile pySpace) then
        (fun r3 =>
          if (r3.takeWhile pySpace).isEmpty then none
          else
            (fun r4 =>
              if (r4.takeWhile pyDigit).isEmpty then none
              else mdDariTail (r4.takeWhile pyDigit).length r4)
              (r3.dropWhile pySpace))
          ((r1.dropWhile pySpace).drop 4)
      else none)
      (s.drop (s.takeWhile pyDigit).length)

/-- The page-counter substitution of mandiri-pdf.py line 143. -/
def mdDariStrip (s : Str) : Str := (mdDariAt s).getD s

/-- The description post-processing of mandiri-pdf.py lines 139-144:
join, strip, leading-number strip, timestamp+WIB removal, header-banner
removal, page-counter removal, whitespace collapse, strip. -/
def mdCleanDesc (descLines : List Str) : Str :=
  pyStrip (collapseWs (mdDariStrip (mdBannerStrip
    (subRemove mdWibMatchAt
      (stripLeadNum (pyStrip (List.intercalate [' '] descLines)))))))

/-- Result of the inner accumulation loop of `MandiriPDFParser.parse`. -/
structure MdInnerRes where
  descLines : List Str
  amount : Rat
  balance : Rat
  ty : Str
  nextI : Nat
deriving DecidableEq, Repr

/-- The timestamp / reference lookahead of mandiri-pdf.py lines 118-134,
entered right after the amount line with `i` already advanced past it. -/
def mdTsHandle (lines : List Str) (i : Nat) (acc : List Str)
    (amount bal : Rat) (ty : Str) : MdInnerRes :=
  if i < lines.length then
    match mdTsWithTail (pyStrip (lines.getD i [])) with
    | some tail =>
      if !(pyStrip tail).isEmpty && !(mdDateMatch (pyStrip tail)).isSome then
        ⟨(pyStrip tail :: acc).reverse, amount, bal, ty, i + 1⟩
      else ⟨acc.reverse, amount, bal, ty, i + 1⟩
    | none =>
      if mdTsBare (pyStrip (lines.getD i [])) then
        if i + 1 < lines.length then
          if !(pyStrip (lines.getD (i + 1) [])).isEmpty &&
              !(mdDateMatch (pyStrip (lines.getD (i + 1) []))).isSome &&
              !mdRefStarts (pyStrip (lines.getD (i + 1) [])) then
            ⟨(pyStrip (lines.getD (i + 1) []) :: acc).reverse, amount, bal, ty, i + 2⟩
          else ⟨acc.reverse, amount, bal, ty, i + 1⟩
        else ⟨acc.reverse, amount, bal, ty, i + 1⟩
      else ⟨acc.reverse, amount, bal, ty, i⟩
  else ⟨acc.reverse, amount, bal, ty, i⟩

/-- The inner accumulation loop of mandiri-pdf.py lines 87-137: gather
description lines until a new date line or a structural banner; on the
amount line, read the amount (absolute value; sign decides direction)
and the balance (last token when more than one), then run the
timestamp lookahead and stop. -/
def mdInner (lines : List Str) : Nat → Nat → List Str → MdInnerRes
  | 0, i, acc => ⟨acc.reverse, 0, 0, lit "DEBIT", i⟩
  | fuel + 1, i, acc =>
    if i < lines.length then
      if (mdDateMatch (pyStrip (lines.getD i []))).isSome then
        ⟨acc.reverse, 0, 0, lit "DEBIT", i⟩
      else if (lit "No ").isPrefixOf (pyStrip (lines.getD i [])) ||
          containsSub (lit "PT Bank") (pyStrip (lines.getD i [])) ||
          (lit "e-Statement").isPrefixOf (pyStrip (lines.getD i [])) then
        ⟨acc.reverse, 0, 0, lit "DEBIT", i⟩
      else if (pyStrip (lines.getD i [])).isEmpty ||
          pyStrip (lines.getD i []) == lit "WIB" then
        mdInner lines fuel (i + 1) acc
      else if mdPrecheck (pyStrip (lines.getD i [])) then
        match mdTokens (pyStrip (lines.getD i [])) with
        | [] => mdTsHandle lines (i + 1) acc 0 0 (lit "DEBIT")
        | m :: ms =>
          mdTsHandle lines (i + 1)
            (if !(stripLeadDay (pyStrip ((pyStrip (lines.getD i [])).take m.start))).isEmpty &&
                !isAllDigits (stripLeadDay (pyStrip ((pyStrip (lines.getD i [])).take m.start))) then
              stripLeadDay (pyStrip ((pyStrip (lines.getD i [])).take m.start)) :: acc
            else acc)
            |mandiriPdfParseAmount m.tok|
            (if 0 < ms.length then
              mandiriPdfParseAmount ((m :: ms).getLastD m).tok
            else 0)
            (if mandiriPdfParseAmount m.tok < 0 then lit "DEBIT"
             else lit "CREDIT")
      else mdInner lines fuel (i + 1) (pyStrip (lines.getD i []) :: acc)
    else ⟨acc.reverse, 0, 0, lit "DEBIT", i⟩

/-- The leading-description check on the line preceding the date line
(mandiri-pdf.py lines 74-77). -/
def mdPrevGood (i : Nat) (lines : List Str) : Bool :=
  0 < i && !(pyStrip (lines.getD (i - 1) [])).isEmpty &&
    !pyDigit ((pyStrip (lines.getD (i - 1) [])).headD ' ') &&
    !(pyStrip (lines.getD (i - 1) []) == lit "WIB") &&
    (pyStrip (lines.getD (i - 1) [])).length < 50

/-- The per-page line loop of `MandiriPDFParser.parse` (mandiri-pdf.py
lines 56-160): a candidate with an empty post-processed description or
a zero amount is silently skipped, never aborting the file. -/
def mdLoop (owner : Str) (lines : List Str) :
    Nat → Nat → List Transaction → List Transaction
  | 0, _, acc => acc
  | fuel + 1, i, acc =>
    if i < lines.length then
      match mdDateMatch (pyStrip (lines.getD i [])) with
      | some (dayS, monthS, yearS, endOfs) =>
        match mdStrptime dayS monthS yearS with
        | none => mdLoop owner lines fuel (i + 1) acc
        | some txDate =>
          match mdInner lines (lines.length + 1) (i + 1)
              (if !(pyStrip ((pyStrip (lines.getD i [])).drop endOfs)).isEmpty then
                pyStrip ((pyStrip (lines.getD i [])).drop endOfs) ::
                  (if mdPrevGood i lines then [pyStrip (lines.getD (i - 1) [])]
                   else [])
              else
                (if mdPrevGood i lines then [pyStrip (lines.getD (i - 1) [])]
                 else [])) with
          | ⟨descLines, amount, balance, ty, nextI⟩ =>
            if !(mdCleanDesc descLines).isEmpty && 0 < amount then
              mdLoop owner lines fuel nextI
                ({ date := txDate,
                   description := mdCleanDesc descLines,
                   amount := amount, type := ty,
                   balance := balance, reference_no := [],
                   bank_name := lit "Mandiri", account_owner := owner,
                   currency := lit "IDR" } :: acc)
            else mdLoop owner lines fuel nextI acc
      | none => mdLoop owner lines fuel (i + 1) acc
    else acc

/-- `MandiriPDFParser.parse` over already-extracted page texts
(mandiri-pdf.py lines 42-165).  The try/except around the whole body
returns the accumulated transactions on any error; nothing in the body
raises in this model, so the function is total.  The header extraction
of `_extract_header_info` runs in `__init__` and only supplies the
`owner` argument. -/
def mandiriPdfParse (owner : Str) (pages : List Str) : List Transaction :=
  (pages.foldl
    (fun acc p =>
      if p.isEmpty then acc
      else mdLoop owner (splitOnChar '\n' p) ((splitOnChar '\n' p).length + 1) 0 acc)
    []).reverse

/-- A Mandiri-PDF page holding a zero-amount candidate transaction
followed by a well-formed one: the first is dropped, the second is
still parsed. -/
def exPageC5 : Str :=
  lit "ZERO TX\n01 Mar 2025\n0,00 0,00\nGOOD TX\n02 Mar 2025\n1.500,00 10.000,00"

/-- The single transaction Grammar C emits for `exPageC5`. -/
def exTxC5good : Transaction :=
  { date := ⟨2025, 3, 2⟩, description := lit "GOOD TX",
    amount := 1500, type := lit "CREDIT", balance := 10000,
    reference_no := [], bank_name := lit "Mandiri",
    account_owner := lit "O", currency := lit "IDR" }

/-- The transaction Grammar C emits for `exPageC2M`: its amount line
holds a single token, so the balance stays 0 and is never back-filled
although the header's opening balance was discoverable. -/
def exTxC2M : Transaction :=
  { date := ⟨2025, 3, 1⟩, description := lit "TRANSFER MASUK ..,12",
    amount := Rat.divInt 345 100, type := lit "CREDIT", balance := 0,
    reference_no := [], bank_name := lit "Mandiri",
    account_owner := lit "Owner", currency := lit "IDR" }

theorem dropWhile_eq_self_of_head (p : α → Bool) (l : List α)
    (h : ∀ x, l.head? = some x → p x = false) : l.dropWhile p = l := by
  cases l with
  | nil => rfl
  | cons c t =>
    have hc : p c = false := h c rfl
    simp [List.dropWhile_cons, hc]

theorem dropWhile_fixed_head {p : α → Bool} {l : List α}
    (hl : l.dropWhile p = l) : ∀ x, l.head? = some x → p x = false := by
  intro x hx
  cases l with
  | nil => simp at hx
  | cons a u =>
    simp only [List.head?_cons, Option.some.injEq] at hx
    subst hx
    by_cases h : p a
    · rw [List.dropWhile_cons_of_pos h] at hl
      have hlen := congrArg List.length hl
      have hle : (u.dropWhile p).length ≤ u.length :=
        (List.dropWhile_suffix p).sublist.length_le
      simp at hlen
      omega
    · simpa using h

theorem pyStrip_idem (s : Str) : pyStrip (pyStrip s) = pyStrip s := by
  unfold pyStrip
  have h2 : ((s.dropWhile pySpace).rdropWhile pySpace).dropWhile pySpace
      = (s.dropWhile pySpace).rdropWhile pySpace := by
    apply dropWhile_eq_self_of_head
    intro x hx
    obtain ⟨t, ht⟩ := List.rdropWhile_prefix pySpace (s.dropWhile pySpace)
    have hxA : (s.dropWhile pySpace).head? = some x := by
      rw [← ht]
      cases hc : (s.dropWhile pySpace).rdropWhile pySpace with
      | nil => rw [hc] at hx; simp at hx
      | cons c u => rw [hc] at hx; simpa using hx
    exact dropWhile_fixed_head (List.dropWhile_idempotent pySpace s) x hxA
  rw [h2, List.rdropWhile_idempotent]

theorem pyStrip_sublist (s : Str) : (pyStrip s).Sublist s :=
  ((List.rdropWhile_prefix pySpace _).sublist).trans
    (List.dropWhile_suffix pySpace).sublist

/-- C9: owner-name sanitization (keep only letters, whitespace and
periods, then trim) is idempotent: sanitizing an already-sanitized
string returns it unchanged. -/
theorem c9_sanitize_idempotent (s : Str) :
    sanitizeOwner (sanitizeOwner s) = sanitizeOwner s := by
  unfold sanitizeOwner
  have hmem : ∀ a ∈ pyStrip (s.filter ownerKeep), ownerKeep a := by
    intro a ha
    have : a ∈ s.filter ownerKeep := (pyStrip_sublist _).subset ha
    exact (List.mem_filter.mp this).2
  rw [List.filter_eq_self.mpr hmem, pyStrip_idem]

theorem rAdd_eq (a b : Rat) : rAdd a b = a + b := by
  have ha : (a.den : Int) ≠ 0 := Int.natCast_ne_zero.mpr a.den_nz
  have hb : (b.den : Int) ≠ 0 := Int.natCast_ne_zero.mpr b.den_nz
  unfold rAdd
  rw [← Rat.divInt_add_divInt a.num b.num ha hb, Rat.num_divInt_den, Rat.num_divInt_den]

theorem rSub_eq (a b : Rat) : rSub a b = a - b := by
  unfold rSub
  rw [rAdd_eq, sub_eq_add_neg]

theorem divInt_nonneg_of (a b : Int) (ha : 0 ≤ a) (hb : 0 ≤ b) :
    0 ≤ Rat.divInt a b := by
  rw [Rat.divInt_eq_div]
  apply div_nonneg
  · exact_mod_cast ha
  · exact_mod_cast hb

theorem pyFloatUnsigned_nonneg (s : Str) (v : Rat)
    (h : pyFloatUnsigned s = some v) : 0 ≤ v := by
  unfold pyFloatUnsigned at h
  split at h
  · split at h
    · exact absurd h (by simp)
    · simp only [Option.some.injEq] at h
      subst h
      exact Nat.cast_nonneg _
  · split at h
    · simp only [Option.some.injEq] at h
      subst h
      exact divInt_nonneg_of _ _ (by positivity) (by positivity)
    · exact absurd h (by simp)
  · exact absurd h (by simp)

theorem pyFloat_neg_head (s : Str) (v : Rat) (h : pyFloat? s = some v)
    (hv : v < 0) : (pyStrip s).head? = some '-' := by
  unfold pyFloat? at h
  by_cases hm : ((pyStrip s).head? == some '-') = true
  · simpa using hm
  · exfalso
    rw [Bool.not_eq_true] at hm
    rw [hm] at h
    simp only [Bool.false_eq_true, if_false] at h
    by_cases hp : ((pyStrip s).head? == some '+') = true
    · rw [hp] at h
      simp only [if_true] at h
      exact absurd hv (not_lt.mpr (pyFloatUnsigned_nonneg _ _ h))
    · rw [Bool.not_eq_true] at hp
      rw [hp] at h
      simp only [Bool.false_eq_true, if_false] at h
      exact absurd hv (not_lt.mpr (pyFloatUnsigned_nonneg _ _ h))

/-- C8: for both `_parse_amount` implementations (mandiri-pdf.py and
mandiri-xlsx.py), when the remainder of the token after stripping sign
and separators is numeric the result carries the sign recorded from the
leading '-'; when the remainder is non-numeric the malformed-amount
condition is observed as the "no amount present" value 0.0 (parsing
continues, the statement is not aborted); and a negative (signed) result
only ever arises from a token with a leading '-'. -/
theorem c8_parse_amount :
    (∀ s v, pyFloat? (pdfAmountRemainder s) = some v →
      mandiriPdfParseAmount s = (if pdfHasMinus s then -v else v)) ∧
    (∀ s, pyFloat? (pdfAmountRemainder s) = none → mandiriPdfParseAmount s = 0) ∧
    (∀ s v, pyFloat? (xlsxStrRemainder s) = some v →
      xlsxParseAmount (Cell.str s) = v) ∧
    (∀ s, pyFloat? (xlsxStrRemainder s) = none → xlsxParseAmount (Cell.str s) = 0) ∧
    (∀ s v, pyFloat? s = some v → v < 0 → (pyStrip s).head? = some '-') := by
  refine ⟨?_, ?_, ?_, ?_, fun s v h hv => pyFloat_neg_head s v h hv⟩
  · intro s v h
    cases s with
    | nil =>
      have h0 : pyFloat? (pdfAmountRemainder ([] : Str)) = none := by decide
      rw [h0] at h
      simp at h
    | cons c t =>
      show (if (c :: t).isEmpty then 0 else _) = _
      rw [if_neg (by simp)]
      show (match pyFloat? (pdfAmountRemainder (c :: t)) with
        | some v => if (pyStrip (c :: t)).head? == some '-' then -v else v
        | none => 0) = _
      rw [h]
      rfl
  · intro s h
    cases s with
    | nil => rfl
    | cons c t =>
      show (if (c :: t).isEmpty then 0 else _) = _
      rw [if_neg (by simp)]
      show (match pyFloat? (pdfAmountRemainder (c :: t)) with
        | some v => if (pyStrip (c :: t)).head? == some '-' then -v else v
        | none => 0) = _
      rw [h]
  · intro s v h
    unfold xlsxParseAmount
    have hguard : (pdIsNa (Cell.str s) || (pyStrip (cellToStr (Cell.str s)) == lit "-")) = false := by
      simp only [pdIsNa, Bool.false_or]
      by_contra hc
      simp only [Bool.not_eq_false, beq_iff_eq] at hc
      have : pyFloat? (xlsxStrRemainder s) = none := by
        unfold xlsxStrRemainder
        rw [show cellToStr (Cell.str s) = s from rfl] at hc
        rw [hc]
        decide
      rw [this] at h
      exact absurd h (by simp)
    rw [hguard]
    simp only [Bool.false_eq_true, if_false]
    show (pyFloat? (xlsxStrRemainder s)).getD 0 = v
    rw [h]
    rfl
  · intro s h
    unfold xlsxParseAmount
    by_cases hguard : (pdIsNa (Cell.str s) || (pyStrip (cellToStr (Cell.str s)) == lit "-")) = true
    · rw [hguard]
      rfl
    · simp only [Bool.not_eq_true] at hguard
      rw [hguard]
      simp only [Bool.false_eq_true, if_false]
      show (pyFloat? (xlsxStrRemainder s)).getD 0 = 0
      rw [h]
      rfl

/-- C8 witness: concrete evaluations through `c8_parse_amount`. -/
theorem c8_witness :
    mandiriPdfParseAmount (lit "-1.234,56") = -(Rat.divInt 123456 100) ∧
    mandiriPdfParseAmount (lit "abc") = 0 ∧
    xlsxParseAmount (Cell.str (lit "-50.000,25")) = Rat.divInt (-5000025) 100 ∧
    xlsxParseAmount (Cell.str (lit "x1")) = 0 := by
  obtain ⟨h1, h2, h3, h4, _⟩ := c8_parse_amount
  refine ⟨?_, h2 (lit "abc") (by decide), ?_, h4 (lit "x1") (by decide)⟩
  · have := h1 (lit "-1.234,56") (Rat.divInt 123456 100) (by decide)
    rw [this]
    decide
  · exact h3 (lit "-50.000,25") (Rat.divInt (-5000025) 100) (by decide)

/-- C7 counterexample: the preset name "mm" is accepted and maps to the
strftime format "%b", which contains a month but no year component, yet
`OutputFormat` construction succeeds. -/
theorem c7_counterexample :
    validateAndGetFormat (lit "mm") = .ok (lit "%b") ∧
    hasYearDirective (lit "%b") = false ∧
    (mkOutputFormat (lit "mm") false true true true true (lit "IDR")
      false none).isOk = true := by
  refine ⟨by rfl, by decide, by rfl⟩

/-- C7 (amended): constructing an `OutputFormat` succeeds exactly when the
date-format string is one of the preset names (even though the presets
"mm", "mmmm" and "dd/mm" expand to formats lacking a year or month), or
the string itself contains both a month directive (%m/%b/%B) and a year
directive (%Y/%y); any non-preset string lacking a month or a year is
rejected before any parsing begins. -/
theorem c7_amended (fs : Str) :
    (validateAndGetFormat fs).isOk = true ↔
      ((lookupPreset (lowerStr fs)).isSome = true ∨
        (hasMonthDirective fs = true ∧ hasYearDirective fs = true)) := by
  unfold validateAndGetFormat
  cases h : lookupPreset (lowerStr fs) with
  | some v => simp [h, Except.isOk, Except.toBool]
  | none =>
    simp only [h, Option.isSome_none, Bool.false_eq_true, false_or]
    by_cases hm : hasMonthDirective fs = true
    · by_cases hy : hasYearDirective fs = true
      · simp [hm, hy, strftimeProbeOk, Except.isOk, Except.toBool]
      · simp only [Bool.not_eq_true] at hy
        simp [hm, hy, Except.isOk, Except.toBool]
    · simp only [Bool.not_eq_true] at hm
      simp [hm, Except.isOk, Except.toBool]

theorem xlsxRowFinish_spec (cols : XlsxCols) (owner : Str) (row : List Cell)
    (d : PDate) (tx : Transaction)
    (h : xlsxRowFinish cols owner row d = some tx) :
    tx.amount = max (xlsxRowDebit cols row) (xlsxRowCredit cols row) ∧
    (tx.type = lit "DEBIT" ∨ tx.type = lit "CREDIT") ∧
    (0 < xlsxRowDebit cols row → tx.type = lit "DEBIT") ∧
    (xlsxRowDebit cols row ≤ 0 → 0 < xlsxRowCredit cols row →
      tx.type = lit "CREDIT") := by
  unfold xlsxRowFinish at h
  by_cases h1 : 0 < xlsxRowDebit cols row
  · rw [if_pos h1] at h
    simp only [Option.some.injEq] at h
    subst h
    exact ⟨rfl, Or.inl rfl, fun _ => rfl, fun hle _ => absurd h1 (not_lt.mpr hle)⟩
  · rw [if_neg h1] at h
    by_cases h2 : 0 < xlsxRowCredit cols row
    · rw [if_pos h2] at h
      simp only [Option.some.injEq] at h
      subst h
      exact ⟨rfl, Or.inr rfl, fun hd => absurd hd h1, fun _ _ => rfl⟩
    · rw [if_neg h2] at h
      by_cases h3 : max (xlsxRowDebit cols row) (xlsxRowCredit cols row) = 0
      · rw [if_pos h3] at h
        exact absurd h (by simp)
      · rw [if_neg h3] at h
        simp only [Option.some.injEq] at h
        subst h
        exact ⟨rfl, Or.inl rfl, fun hd => absurd hd h1, fun _ hc => absurd hc h2⟩

theorem xlsxRowTx_spec (cols : XlsxCols) (owner : Str) (row : List Cell)
    (tx : Transaction) (h : xlsxRowTx cols owner row = some tx) :
    tx.amount = max (xlsxRowDebit cols row) (xlsxRowCredit cols row) ∧
    (tx.type = lit "DEBIT" ∨ tx.type = lit "CREDIT") ∧
    (0 < xlsxRowDebit cols row → tx.type = lit "DEBIT") ∧
    (xlsxRowDebit cols row ≤ 0 → 0 < xlsxRowCredit cols row →
      tx.type = lit "CREDIT") := by
  unfold xlsxRowTx at h
  cases hdt : xlsxRowDate cols row with
  | none => rw [hdt] at h; exact absurd h (by simp)
  | some d => rw [hdt] at h; exact xlsxRowFinish_spec cols owner row d tx h

/-- C6: in the tabular grid grammar, debit and credit cells of a data
row are parsed independently; every emitted transaction has
`amount = max(debit, credit)`, direction DEBIT when debit > 0 and
CREDIT when debit ≤ 0 < credit; a row with no positive cell and zero
amount is skipped; and the example grid (header
`["Tanggal","Uraian","Debet","Kredit","Saldo"]`, data row
`["01/03/2025","BIAYA ADM","",50000,950000]`) yields exactly one
transaction, a CREDIT of amount 50000 with balance 950000. -/
theorem c6_tabular :
    (∀ cols owner row tx, xlsxRowTx cols owner row = some tx →
      tx.amount = max (xlsxRowDebit cols row) (xlsxRowCredit cols row) ∧
      (0 < xlsxRowDebit cols row → tx.type = lit "DEBIT") ∧
      (xlsxRowDebit cols row ≤ 0 → 0 < xlsxRowCredit cols row →
        tx.type = lit "CREDIT")) ∧
    (∀ cols owner row, xlsxRowDebit cols row ≤ 0 → xlsxRowCredit cols row ≤ 0 →
      max (xlsxRowDebit cols row) (xlsxRowCredit cols row) = 0 →
      xlsxRowTx cols owner row = none) ∧
    mandiriXlsxParse (lit "Owner") exGridC6 = [exTxC6] := by
  refine ⟨?_, ?_, by decide⟩
  · intro cols owner row tx h
    obtain ⟨ha, _, hd, hc⟩ := xlsxRowTx_spec cols owner row tx h
    exact ⟨ha, hd, hc⟩
  · intro cols owner row hd hc hm
    unfold xlsxRowTx
    cases hdt : xlsxRowDate cols row with
    | none => rfl
    | some d =>
      show xlsxRowFinish cols owner row d = none
      unfold xlsxRowFinish
      rw [if_neg (not_lt.mpr hd), if_neg (not_lt.mpr hc), if_pos hm]

/-- C6 witness: the general row facts instantiated on the example grid's
data row. -/
theorem c6_witness :
    exTxC6.amount =
      max (xlsxRowDebit (xlsxInferCols (exGridC6.getD 0 [])) (exGridC6.getD 1 []))
        (xlsxRowCredit (xlsxInferCols (exGridC6.getD 0 [])) (exGridC6.getD 1 [])) ∧
    exTxC6.type = lit "CREDIT" := by
  have h := (c6_tabular.1) (xlsxInferCols (exGridC6.getD 0 []))
    (lit "Owner") (exGridC6.getD 1 []) exTxC6 (by decide)
  exact ⟨h.1, h.2.2 (by decide) (by decide)⟩

theorem mem_of_headEq {l : List α} {a : α} (h : l.head? = some a) : a ∈ l := by
  cases l with
  | nil => simp at h
  | cons b t =>
    simp only [List.head?_cons, Option.some.injEq] at h
    subst h
    exact List.mem_cons_self _ _

theorem bcaTokenVal_nonneg (tok : Str) (hno : '-' ∉ tok) : 0 ≤ bcaTokenVal tok := by
  unfold bcaTokenVal
  cases hv : pyFloat? (tok.filter (fun c => c ≠ ',')) with
  | none => exact le_refl 0
  | some v =>
    simp only [Option.getD_some]
    by_contra hneg
    push_neg at hneg
    have hh := pyFloat_neg_head _ v hv hneg
    have hmem : '-' ∈ pyStrip (tok.filter (fun c => c ≠ ',')) := mem_of_headEq hh
    have h2 : '-' ∈ tok.filter (fun c => c ≠ ',') := (pyStrip_sublist _).subset hmem
    exact hno (List.mem_of_mem_filter h2)

theorem scanAllGo_tok (matcher : Str → Option (Nat × Str)) (Q : Str → Prop)
    (hm : ∀ s len tok, matcher s = some (len, tok) → Q tok) :
    ∀ fuel s pos, ∀ m ∈ scanAllGo matcher fuel s pos, Q m.tok := by
  intro fuel
  induction fuel with
  | zero =>
    intro s pos m hmem
    simp [scanAllGo] at hmem
  | succ fuel ih =>
    intro s pos m hmem
    cases s with
    | nil => simp [scanAllGo] at hmem
    | cons c t =>
      simp only [scanAllGo] at hmem
      cases hmt : matcher (c :: t) with
      | none =>
        rw [hmt] at hmem
        exact ih _ _ _ hmem
      | some p =>
        obtain ⟨len, tok⟩ := p
        rw [hmt] at hmem
        rcases List.mem_cons.mp hmem with h1 | h2
        · subst h1
          exact hm _ _ _ hmt
        · exact ih _ _ _ h2

theorem bcaMatchAt_no_dash (s : Str) (len : Nat) (tok : Str)
    (h : bcaMatchAt s = some (len, tok)) : '-' ∉ tok := by
  unfold bcaMatchAt at h
  split at h
  · rename_i hcond
    simp only [Bool.and_eq_true] at hcond
    obtain ⟨⟨⟨-, -⟩, hd1⟩, hd2⟩ := hcond
    simp only [Option.some.injEq, Prod.mk.injEq] at h
    obtain ⟨-, htok⟩ := h
    subst htok
    intro hmem
    simp only [List.mem_append, List.mem_cons, List.not_mem_nil, or_false] at hmem
    rcases hmem with h1 | h1 | h1 | h1
    · exact absurd (List.mem_takeWhile_imp h1) (by decide)
    · exact absurd h1 (by decide)
    · rw [← h1] at hd1
      exact absurd hd1 (by decide)
    · rw [← h1] at hd2
      exact absurd hd2 (by decide)
  · exact absurd h (by simp)

theorem bcaTokens_no_dash (content : Str) :
    ∀ m ∈ bcaTokens content, '-' ∉ m.tok := by
  intro m hm
  exact scanAllGo_tok bcaMatchAt (fun tok => '-' ∉ tok) bcaMatchAt_no_dash
    content.length content 0 m hm

theorem bcaAmount_nonneg (content : Str) : 0 ≤ bcaAmount content := by
  unfold bcaAmount
  cases ht : bcaTokens content with
  | nil => simp only [bcaAmountOf]; exact le_refl 0
  | cons m ms =>
    simp only [bcaAmountOf]
    apply bcaTokenVal_nonneg
    apply bcaTokens_no_dash content
    rw [ht]
    exact List.mem_cons_self _ _

theorem bcaType_cases (content : Str) :
    bcaType content = lit "DEBIT" ∨ bcaType content = lit "CREDIT" := by
  unfold bcaType
  cases bcaTokens content with
  | nil => exact Or.inr rfl
  | cons m ms =>
    simp only [bcaTypeOf]
    by_cases h : containsSub (lit "DB") (window5 content m.stop) = true
    · rw [if_pos h]; exact Or.inl rfl
    · rw [if_neg h]; exact Or.inr rfl

theorem tryMkDate_year (y m d : Nat) (p : PDate) (h : tryMkDate y m d = some p) :
    p.year = y := by
  unfold tryMkDate at h
  split at h
  · simp only [Option.some.injEq] at h
    subst h
    rfl
  · exact absurd h (by simp)

theorem bcaMkDate_year (y m d : Nat) (p : PDate) (h : bcaMkDate y m d = some p) :
    p.year = y := by
  unfold bcaMkDate at h
  cases h1 : tryMkDate y m d with
  | some q =>
    rw [h1] at h
    simp only [Option.some.injEq] at h
    subst h
    exact tryMkDate_year y m d q h1
  | none =>
    rw [h1] at h
    exact tryMkDate_year y 1 1 p h

theorem bcaLoop_inv (year : Nat) (owner : Str) (opening : Rat)
    (lines : List Str) (P : Transaction → Prop)
    (hstep : ∀ m d txDate content bal2, bcaMkDate year m d = some txDate →
      P { date := txDate, description := bcaCleanDesc content,
          amount := bcaAmount content, type := bcaType content, balance := bal2,
          reference_no := bcaRefNo (bcaCleanDesc content), bank_name := lit "BCA",
          account_owner := owner, currency := lit "IDR" }) :
    ∀ fuel i running acc r acc2,
      (∀ t ∈ acc, P t) →
      bcaLoop year owner opening lines fuel i running acc = some (r, acc2) →
      ∀ t ∈ acc2, P t := by
  intro fuel
  induction fuel with
  | zero =>
    intro i running acc r acc2 hacc h
    simp only [bcaLoop, Option.some.injEq, Prod.mk.injEq] at h
    obtain ⟨-, h2⟩ := h
    subst h2
    exact hacc
  | succ fuel ih =>
    intro i running acc r acc2 hacc h
    simp only [bcaLoop] at h
    split at h
    · split at h
      · rename_i day month rest heq
        split at h
        · split at h
          · exact absurd h (by simp)
          · rename_i txDate hmk
            refine ih _ _ _ _ _ ?_ h
            intro t ht
            rcases List.mem_cons.mp ht with h1 | h2
            · subst h1
              exact hstep month day txDate _ _ hmk
            · exact hacc t h2
        · exact ih _ _ _ _ _ hacc h
      · exact ih _ _ _ _ _ hacc h
    · simp only [Option.some.injEq, Prod.mk.injEq] at h
      obtain ⟨-, h2⟩ := h
      subst h2
      exact hacc

theorem bcaPages_inv (year : Nat) (owner : Str) (opening : Rat)
    (P : Transaction → Prop)
    (hstep : ∀ m d txDate content bal2, bcaMkDate year m d = some txDate →
      P { date := txDate, description := bcaCleanDesc content,
          amount := bcaAmount content, type := bcaType content, balance := bal2,
          reference_no := bcaRefNo (bcaCleanDesc content), bank_name := lit "BCA",
          account_owner := owner, currency := lit "IDR" }) :
    ∀ pages running acc r acc2,
      (∀ t ∈ acc, P t) →
      bcaPages year owner opening pages running acc = some (r, acc2) →
      ∀ t ∈ acc2, P t := by
  intro pages
  induction pages with
  | nil =>
    intro running acc r acc2 hacc h
    simp only [bcaPages, Option.some.injEq, Prod.mk.injEq] at h
    obtain ⟨-, h2⟩ := h
    subst h2
    exact hacc
  | cons p ps ih =>
    intro running acc r acc2 hacc h
    simp only [bcaPages] at h
    by_cases hp : p.isEmpty = true
    · rw [if_pos hp] at h
      exact ih _ _ _ _ hacc h
    · rw [if_neg hp] at h
      cases hl : bcaLoop year owner opening (splitOnChar '\n' p)
          ((splitOnChar '\n' p).length + 1) 0 running acc with
      | none =>
        rw [hl] at h
        exact absurd h (by simp)
      | some pr =>
        obtain ⟨r2, accMid⟩ := pr
        rw [hl] at h
        exact ih _ _ _ _
          (bcaLoop_inv year owner opening _ P hstep _ _ _ _ _ _ hacc hl) h

theorem bcaParse_inv (P : Transaction → Prop)
    (hstep : ∀ year owner, ∀ m d txDate content bal2,
      bcaMkDate year m d = some txDate →
      P { date := txDate, description := bcaCleanDesc content,
          amount := bcaAmount content, type := bcaType content, balance := bal2,
          reference_no := bcaRefNo (bcaCleanDesc content), bank_name := lit "BCA",
          account_owner := owner, currency := lit "IDR" }) :
    ∀ nowYear ownerInit pages txs,
      bcaParse nowYear ownerInit pages = some txs → ∀ t ∈ txs, P t := by
  intro nowYear ownerInit pages txs h
  cases pages with
  | nil =>
    simp only [bcaParse, Option.some.injEq] at h
    subst h
    intro t ht
    simp at ht
  | cons p0 ps =>
    simp only [bcaParse] at h
    cases hpg : bcaPages
        (if p0.isEmpty then nowYear else (searchPeriode p0).getD nowYear)
        (if p0.isEmpty then ownerInit else bcaOwner ownerInit p0)
        (if p0.isEmpty then 0 else bcaSaldoVal p0) (p0 :: ps)
        (if p0.isEmpty then 0 else bcaSaldoVal p0) [] with
    | none =>
      rw [hpg] at h
      exact absurd h (by simp)
    | some pr =>
      obtain ⟨r2, acc2⟩ := pr
      rw [hpg] at h
      simp only [Option.some.injEq] at h
      subst h
      intro t ht
      rw [List.mem_reverse] at ht
      exact bcaPages_inv _ _ _ P (hstep _ _) _ _ _ _ _ (by simp) hpg t ht

/-- C3: amount/direction/balance extraction of Grammar A — the first
numeric token is the amount; DEBIT exactly when "DB" occurs within the 5
characters after it; with two or more tokens the last token is the
balance unless its own 5-character window holds "DB" or "CR", in which
case (with at least three tokens) the second-to-last token is used — and
the example line "01/02 TRANSFER DANA 106,161.00 DB 500,000.00" under
header year 2025 yields exactly one transaction dated 2025-02-01, amount
106161.00, DEBIT, balance 500000.00, description "TRANSFER DANA". -/
theorem c3_bca_line :
    (∀ content m ms, bcaTokens content = m :: ms →
      bcaAmount content = bcaTokenVal m.tok) ∧
    (∀ content m ms, bcaTokens content = m :: ms →
      (bcaType content = lit "DEBIT" ↔
        containsSub (lit "DB") (window5 content m.stop) = true)) ∧
    (∀ content m ms, bcaTokens content = m :: ms → 2 ≤ (m :: ms).length →
      containsSub (lit "DB") (window5 content ((m :: ms).getLastD m).stop) = false →
      containsSub (lit "CR") (window5 content ((m :: ms).getLastD m).stop) = false →
      bcaBalance content = bcaTokenVal ((m :: ms).getLastD m).tok) ∧
    (∀ content m ms, bcaTokens content = m :: ms → 3 ≤ (m :: ms).length →
      (containsSub (lit "DB") (window5 content ((m :: ms).getLastD m).stop) = true ∨
        containsSub (lit "CR") (window5 content ((m :: ms).getLastD m).stop) = true) →
      bcaBalance content = bcaTokenVal ((m :: ms).getD ((m :: ms).length - 2) m).tok) ∧
    bcaParse 2024 (lit "Owner") [exPageC3] = some [exTxC3] := by
  refine ⟨?_, ?_, ?_, ?_, by decide⟩
  · intro content m ms h
    unfold bcaAmount
    rw [h]
    simp only [bcaAmountOf]
  · intro content m ms h
    unfold bcaType
    rw [h]
    simp only [bcaTypeOf]
    by_cases hdb : containsSub (lit "DB") (window5 content m.stop) = true
    · rw [if_pos hdb]
      exact ⟨fun _ => hdb, fun _ => rfl⟩
    · rw [if_neg hdb]
      constructor
      · intro hcd
        exact absurd hcd (by decide)
      · intro hc
        exact absurd hc hdb
  · intro content m ms h hlen hdb hcr
    unfold bcaBalance
    rw [h]
    simp only [bcaBalanceOf]
    rw [if_pos (by omega : 1 < (m :: ms).length),
      if_pos (by rw [hdb, hcr]; rfl)]
  · intro content m ms h hlen hmk
    unfold bcaBalance
    rw [h]
    simp only [bcaBalanceOf]
    rw [if_pos (by omega : 1 < (m :: ms).length)]
    have hcond : (!containsSub (lit "DB")
        (window5 content ((m :: ms).getLastD m).stop) &&
        !containsSub (lit "CR")
          (window5 content ((m :: ms).getLastD m).stop)) = false := by
      rcases hmk with h1 | h1 <;> rw [h1] <;> simp
    rw [if_neg (by rw [hcond]; simp), if_pos (by omega : 2 < (m :: ms).length)]

/-- C3 witness: the general token facts instantiated on the example
line's accumulated content. -/
theorem c3_witness :
    bcaAmount contentC3 = bcaTokenVal (lit "106,161.00") ∧
    bcaType contentC3 = lit "DEBIT" ∧
    bcaBalance contentC3 = bcaTokenVal (lit "500,000.00") := by
  refine ⟨c3_bca_line.1 contentC3 ⟨14, 24, lit "106,161.00"⟩
      [⟨28, 38, lit "500,000.00"⟩] (by decide), ?_, ?_⟩
  · exact (c3_bca_line.2.1 contentC3 ⟨14, 24, lit "106,161.00"⟩
      [⟨28, 38, lit "500,000.00"⟩] (by decide)).mpr (by decide)
  · exact c3_bca_line.2.2.1 contentC3 ⟨14, 24, lit "106,161.00"⟩
      [⟨28, 38, lit "500,000.00"⟩] (by decide) (by decide) (by decide) (by decide)

/-- C10: when the first page has no `PERIODE : <month> <4-digit-year>`
pattern, every transaction Grammar A emits is dated in the year the
system clock showed at parse time (`nowYear`); consequently the same
fixed input parsed under two different clock years yields different
outputs — the result is not a function of the input alone. -/
theorem c10_bca_clock_year :
    (∀ y owner p0 ps txs, searchPeriode p0 = none →
      bcaParse y owner (p0 :: ps) = some txs →
      ∀ t ∈ txs, t.date.year = y) ∧
    bcaParse 2024 (lit "Owner") [exPageC10] ≠
      bcaParse 2025 (lit "Owner") [exPageC10] := by
  constructor
  · intro y owner p0 ps txs hnp h
    have hyear : (if p0.isEmpty then y else (searchPeriode p0).getD y) = y := by
      by_cases hp : p0.isEmpty
      · rw [if_pos hp]
      · rw [if_neg hp, hnp]
        rfl
    simp only [bcaParse, hyear] at h
    cases hpg : bcaPages y
        (if p0.isEmpty then owner else bcaOwner owner p0)
        (if p0.isEmpty then 0 else bcaSaldoVal p0) (p0 :: ps)
        (if p0.isEmpty then 0 else bcaSaldoVal p0) [] with
    | none =>
      rw [hpg] at h
      exact absurd h (by simp)
    | some pr =>
      obtain ⟨r2, acc2⟩ := pr
      rw [hpg] at h
      simp only [Option.some.injEq] at h
      subst h
      intro t ht
      rw [List.mem_reverse] at ht
      refine bcaPages_inv y _ _ (fun t => t.date.year = y) ?_ _ _ _ _ _
        (by simp) hpg t ht
      intro m d txDate content bal2 hmk
      exact bcaMkDate_year y m d txDate hmk
  · decide

theorem mdTsHandle_ty (lines : List Str) (i : Nat) (acc : List Str)
    (amount bal : Rat) (ty : Str) :
    (mdTsHandle lines i acc amount bal ty).ty = ty := by
  unfold mdTsHandle
  repeat' split
  all_goals rfl

theorem mdInner_ty (lines : List Str) :
    ∀ fuel i acc, (mdInner lines fuel i acc).ty = lit "DEBIT" ∨
      (mdInner lines fuel i acc).ty = lit "CREDIT" := by
  intro fuel
  induction fuel with
  | zero => intro i acc; exact Or.inl rfl
  | succ fuel ih =>
    intro i acc
    unfold mdInner
    split
    · split
      · exact Or.inl rfl
      · split
        · exact Or.inl rfl
        · split
          · exact ih _ _
          · split
            · split
              · rw [mdTsHandle_ty]
                exact Or.inl rfl
              · rw [mdTsHandle_ty]
                split
                · exact Or.inl rfl
                · exact Or.inr rfl
            · exact ih _ _
    · exact Or.inl rfl

theorem mdLoop_emitted (owner : Str) (lines : List Str) :
    ∀ fuel i acc,
      (∀ t ∈ acc, t.description ≠ [] ∧ 0 < t.amount ∧
        (t.type = lit "DEBIT" ∨ t.type = lit "CREDIT")) →
      ∀ t ∈ mdLoop owner lines fuel i acc,
        t.description ≠ [] ∧ 0 < t.amount ∧
          (t.type = lit "DEBIT" ∨ t.type = lit "CREDIT") := by
  intro fuel
  induction fuel with
  | zero =>
    intro i acc hacc
    exact hacc
  | succ fuel ih =>
    intro i acc hacc
    unfold mdLoop
    split
    · split
      · rename_i dayS monthS yearS endOfs heq
        split
        · exact ih _ _ hacc
        · rename_i txDate hmk
          split
          rename_i descLines amount balance ty nextI heq
          have hty : ty = lit "DEBIT" ∨ ty = lit "CREDIT" := by
            have h0 := mdInner_ty lines (lines.length + 1) (i + 1)
              (if !(pyStrip ((pyStrip (lines.getD i [])).drop endOfs)).isEmpty then
                pyStrip ((pyStrip (lines.getD i [])).drop endOfs) ::
                  (if mdPrevGood i lines then [pyStrip (lines.getD (i - 1) [])]
                   else [])
              else
                (if mdPrevGood i lines then [pyStrip (lines.getD (i - 1) [])]
                 else []))
            rw [heq] at h0
            exact h0
          split
          · rename_i hcond
            rw [Bool.and_eq_true] at hcond
            obtain ⟨h1, h2⟩ := hcond
            refine ih _ _ ?_
            intro t ht
            rcases List.mem_cons.mp ht with he | hm2
            · subst he
              refine ⟨?_, of_decide_eq_true h2, hty⟩
              intro hempty
              have h3 : mdCleanDesc descLines = [] := hempty
              rw [h3] at h1
              simp at h1
            · exact hacc t hm2
          · exact ih _ _ hacc
      · exact ih _ _ hacc
    · exact hacc

theorem mandiriPdfParse_emitted (owner : Str) (pages : List Str) :
    ∀ t ∈ mandiriPdfParse owner pages,
      t.description ≠ [] ∧ 0 < t.amount ∧
        (t.type = lit "DEBIT" ∨ t.type = lit "CREDIT") := by
  intro t ht
  unfold mandiriPdfParse at ht
  rw [List.mem_reverse] at ht
  revert ht
  have hgen : ∀ (ps : List Str) (acc : List Transaction),
      (∀ t ∈ acc, t.description ≠ [] ∧ 0 < t.amount ∧
        (t.type = lit "DEBIT" ∨ t.type = lit "CREDIT")) →
      ∀ t ∈ ps.foldl
        (fun acc p =>
          if p.isEmpty then acc
          else mdLoop owner (splitOnChar '\n' p)
            ((splitOnChar '\n' p).length + 1) 0 acc) acc,
        t.description ≠ [] ∧ 0 < t.amount ∧
          (t.type = lit "DEBIT" ∨ t.type = lit "CREDIT") := by
    intro ps
    induction ps with
    | nil => intro acc hacc; exact hacc
    | cons p ps ih =>
      intro acc hacc
      simp only [List.foldl_cons]
      apply ih
      by_cases hp : p.isEmpty = true
      · rw [if_pos hp]; exact hacc
      · rw [if_neg hp]
        exact mdLoop_emitted owner _ _ _ _ hacc
  exact hgen pages [] (by simp) t

/-- C5: every candidate transaction of Grammar C with an empty
post-processed description or a zero amount is dropped (never appended),
without aborting the rest of the file: every transaction the grammar
emits has a non-empty description and a strictly positive amount. -/
theorem c5_mandiri_drop (owner : Str) (pages : List Str) :
    ∀ t ∈ mandiriPdfParse owner pages, t.description ≠ [] ∧ 0 < t.amount := by
  intro t ht
  obtain ⟨h1, h2, -⟩ := mandiriPdfParse_emitted owner pages t ht
  exact ⟨h1, h2⟩

/-- C5 witness: on a page holding a zero-amount candidate followed by a
well-formed transaction, parsing continues past the dropped candidate
and the emitted transaction satisfies the invariant. -/
theorem c5_witness :
    mandiriPdfParse (lit "O") [exPageC5] = [exTxC5good] ∧
    exTxC5good.description ≠ [] ∧ 0 < exTxC5good.amount := by
  have h := c5_mandiri_drop (lit "O") [exPageC5] exTxC5good (by decide)
  exact ⟨by decide, h.1, h.2⟩

theorem cimbFirstNeg_eq_some (ms : List MatchSpan) (m : MatchSpan)
    (h : cimbFirstNeg ms = some m) :
    ∃ pre post, ms = pre ++ m :: post ∧
      (∀ x ∈ pre, x.tok.head? ≠ some '-') ∧ m.tok.head? = some '-' := by
  induction ms with
  | nil => exact absurd h (by simp [cimbFirstNeg])
  | cons a t ih =>
    unfold cimbFirstNeg at h
    by_cases ha : (a.tok.head? == some '-') = true
    · rw [if_pos ha] at h
      simp only [Option.some.injEq] at h
      subst h
      exact ⟨[], t, rfl, by simp, by simpa using ha⟩
    · rw [if_neg ha] at h
      obtain ⟨pre, post, he, hpre, hm⟩ := ih h
      refine ⟨a :: pre, post, by rw [he]; rfl, ?_, hm⟩
      intro x hx
      rcases List.mem_cons.mp hx with hxa | hxp
      · subst hxa
        simpa using ha
      · exact hpre x hxp

theorem cimbFirstNeg_eq_none (ms : List MatchSpan)
    (h : cimbFirstNeg ms = none) : ∀ x ∈ ms, x.tok.head? ≠ some '-' := by
  induction ms with
  | nil => intro x hx; exact absurd hx (by simp)
  | cons a t ih =>
    unfold cimbFirstNeg at h
    by_cases ha : (a.tok.head? == some '-') = true
    · rw [if_pos ha] at h
      exact absurd h (by simp)
    · rw [if_neg ha] at h
      intro x hx
      rcases List.mem_cons.mp hx with hxa | hxp
      · subst hxa
        simpa using ha
      · exact ih h x hxp

/-- C4: in Grammar B the first token carrying a leading '-' (no earlier
token is negative) gives the amount as its absolute value and marks
DEBIT; with no negative token the first token overall is the amount and
marks CREDIT; with a second distinct token (start offset differing from
the first's) the last token is the balance — and the example line
"01 Jan 2025 OVERBOOKING REF123 -100,000.00 400,000.00" yields exactly
one transaction with amount 100000.00, DEBIT, balance 400000.00. -/
theorem c4_cimb_line :
    (∀ ms m, cimbFirstNeg ms = some m →
      (∃ pre post, ms = pre ++ m :: post ∧
        (∀ x ∈ pre, x.tok.head? ≠ some '-') ∧ m.tok.head? = some '-') ∧
      cimbAmountType ms = (|bcaTokenVal m.tok|, lit "DEBIT")) ∧
    (∀ m ms, cimbFirstNeg (m :: ms) = none →
      (∀ x ∈ m :: ms, x.tok.head? ≠ some '-') ∧
      cimbAmountType (m :: ms) = (bcaTokenVal m.tok, lit "CREDIT")) ∧
    (∀ m rest, 0 < rest.length →
      ((m :: rest).getLastD m).start ≠ m.start →
      cimbBalanceOf (m :: rest) = bcaTokenVal ((m :: rest).getLastD m).tok) ∧
    cimbParse (lit "Owner") [exPageC4] = some [exTxC4] := by
  refine ⟨?_, ?_, ?_, by decide⟩
  · intro ms m h
    refine ⟨cimbFirstNeg_eq_some ms m h, ?_⟩
    unfold cimbAmountType
    rw [h]
  · intro m ms h
    refine ⟨cimbFirstNeg_eq_none (m :: ms) h, ?_⟩
    unfold cimbAmountType
    rw [h]
  · intro m rest hlen hne
    simp only [cimbBalanceOf]
    rw [if_pos hlen, if_pos hne]

/-- C4 witness: the token facts instantiated on the example line's two
token spans. -/
theorem c4_witness :
    cimbAmountType
        [⟨19, 30, lit "-100,000.00"⟩, ⟨31, 41, lit "400,000.00"⟩] =
      (|bcaTokenVal (lit "-100,000.00")|, lit "DEBIT") ∧
    cimbBalanceOf
        [⟨19, 30, lit "-100,000.00"⟩, ⟨31, 41, lit "400,000.00"⟩] =
      bcaTokenVal (lit "400,000.00") := by
  refine ⟨(c4_cimb_line.1
      [⟨19, 30, lit "-100,000.00"⟩, ⟨31, 41, lit "400,000.00"⟩]
      ⟨19, 30, lit "-100,000.00"⟩ (by decide)).2, ?_⟩
  exact c4_cimb_line.2.2.1 ⟨19, 30, lit "-100,000.00"⟩
    [⟨31, 41, lit "400,000.00"⟩] (by decide) (by decide)

/-- C2 counterexample: the CIMB and Mandiri-PDF grammars do not apply
the running-balance reconciliation policy.  Both example pages carry an
opening-balance banner in exactly the shape the shared discovery regex
(bca-pdf.py line 19) extracts as 1000000, and both emitted CREDIT
transactions are constructed with balance 0 — yet the balance stays 0
instead of being back-filled with running + amount. -/
theorem c2_counterexample :
    bcaSaldoVal exPageC2 = 1000000 ∧
    cimbParse (lit "Owner") [exPageC2] = some [exTxC2] ∧
    exTxC2.type = lit "CREDIT" ∧ exTxC2.balance = 0 ∧
    exTxC2.balance ≠ rAdd 1000000 exTxC2.amount ∧
    bcaSaldoVal exPageC2M = 1000000 ∧
    mandiriPdfParse (lit "Owner") [exPageC2M] = [exTxC2M] ∧
    exTxC2M.type = lit "CREDIT" ∧ exTxC2M.balance = 0 ∧
    exTxC2M.balance ≠ rAdd 1000000 exTxC2M.amount := by
  refine ⟨by decide, by decide, rfl, rfl, by decide, by decide, by decide,
    rfl, rfl, by decide⟩

/-- C2 (amended): only Grammar A (BCA PDF) applies the running-balance
reconciliation policy, and there it behaves as specified: when a
transaction's source balance is 0 and a positive opening balance was
discovered, the accumulator and the back-filled balance become
running - amount for DEBIT and running + amount otherwise; an explicit
positive source balance hard-sets the accumulator to that value and is
kept as the transaction's balance. -/
theorem c2_amended (opening running amount : Rat) (ty : Str)
    (balance : Rat) :
    (balance = 0 → 0 < opening →
      (ty = lit "DEBIT" →
        bcaReconcile opening running amount ty balance =
          (running - amount, running - amount)) ∧
      (ty ≠ lit "DEBIT" →
        bcaReconcile opening running amount ty balance =
          (running + amount, running + amount))) ∧
    (0 < balance →
      bcaReconcile opening running amount ty balance =
        (balance, balance)) := by
  constructor
  · intro hb ho
    constructor
    · intro hty
      unfold bcaReconcile
      rw [if_pos ⟨hb, ho⟩, if_pos (by rw [hty]; rfl), rSub_eq]
    · intro hty
      unfold bcaReconcile
      rw [if_pos ⟨hb, ho⟩, if_neg ?_, rAdd_eq]
      intro hbeq
      exact hty (by simpa using hbeq)
  · intro hpos
    unfold bcaReconcile
    rw [if_neg ?_, if_pos hpos]
    rintro ⟨h0, -⟩
    rw [h0] at hpos
    exact lt_irrefl 0 hpos

/-- C2 witness: the amended reconciliation equations at concrete
values — a missing balance back-fills from the accumulator, an explicit
positive balance hard-sets it. -/
theorem c2_witness :
    bcaReconcile 1000000 1000000 50000 (lit "DEBIT") 0 =
      (1000000 - 50000, 1000000 - 50000) ∧
    bcaReconcile 1000000 950000 200 (lit "CREDIT") 300000 =
      (300000, 300000) := by
  refine ⟨((c2_amended 1000000 1000000 50000 (lit "DEBIT") 0).1 rfl
    (by decide)).1 rfl, ?_⟩
  exact (c2_amended 1000000 950000 200 (lit "CREDIT") 300000).2 (by decide)

theorem cimbMatchAt_dash (s : Str) (len : Nat) (tok : Str)
    (h : cimbMatchAt s = some (len, tok)) :
    (∃ core, tok = '-' :: core ∧ '-' ∉ core) ∨ '-' ∉ tok := by
  cases s with
  | nil => exact Or.inr (bcaMatchAt_no_dash [] len tok h)
  | cons c t =>
    simp only [cimbMatchAt] at h
    by_cases hc : c = '-'
    · rw [if_pos hc] at h
      cases hb : bcaMatchAt t with
      | none =>
        rw [hb] at h
        exact absurd h (by simp)
      | some p =>
        obtain ⟨len2, tok2⟩ := p
        rw [hb] at h
        simp only [Option.some.injEq, Prod.mk.injEq] at h
        obtain ⟨-, htok⟩ := h
        subst htok
        exact Or.inl ⟨tok2, rfl, bcaMatchAt_no_dash t len2 tok2 hb⟩
    · rw [if_neg hc] at h
      exact Or.inr (bcaMatchAt_no_dash (c :: t) len tok h)

theorem cimbTokens_dash (rest : Str) :
    ∀ m ∈ cimbTokens rest,
      (∃ core, m.tok = '-' :: core ∧ '-' ∉ core) ∨ '-' ∉ m.tok := by
  intro m hm
  exact scanAllGo_tok cimbMatchAt
    (fun tok => (∃ core, tok = '-' :: core ∧ '-' ∉ core) ∨ '-' ∉ tok)
    cimbMatchAt_dash rest.length rest 0 m hm

theorem cimbAmountType_nonneg (rest : Str) :
    0 ≤ (cimbAmountType (cimbTokens rest)).1 := by
  unfold cimbAmountType
  cases hfn : cimbFirstNeg (cimbTokens rest) with
  | some m => exact abs_nonneg _
  | none =>
    cases ht : cimbTokens rest with
    | nil => exact le_refl 0
    | cons m ms =>
      rw [ht] at hfn
      have hhead : m.tok.head? ≠ some '-' :=
        cimbFirstNeg_eq_none (m :: ms) hfn m (List.mem_cons_self m ms)
      have hm : m ∈ cimbTokens rest := by
        rw [ht]
        exact List.mem_cons_self m ms
      rcases cimbTokens_dash rest m hm with ⟨core, hcore, -⟩ | hno
      · rw [hcore] at hhead
        exact absurd rfl hhead
      · exact bcaTokenVal_nonneg m.tok hno

theorem cimbAmountType_cases (ms : List MatchSpan) :
    (cimbAmountType ms).2 = lit "DEBIT" ∨
      (cimbAmountType ms).2 = lit "CREDIT" := by
  unfold cimbAmountType
  cases cimbFirstNeg ms with
  | some m => exact Or.inl rfl
  | none =>
    cases ms with
    | nil => exact Or.inr rfl
    | cons m t => exact Or.inr rfl

theorem cimbLoop_inv (owner : Str) (lines : List Str)
    (P : Transaction → Prop)
    (hstep : ∀ yearVal month day txDate rest collected,
      tryMkDate yearVal month day = some txDate →
      P { date := txDate,
          description := pyStrip (collapseWs (List.intercalate [' ']
            (pyStrip (cimbStripSpans rest (cimbTokens rest)) :: collected))),
          amount := (cimbAmountType (cimbTokens rest)).1,
          type := (cimbAmountType (cimbTokens rest)).2,
          balance := cimbBalanceOf (cimbTokens rest),
          reference_no := [], bank_name := lit "CIMB",
          account_owner := owner, currency := lit "IDR" }) :
    ∀ fuel i acc acc2,
      (∀ t ∈ acc, P t) →
      cimbLoop owner lines fuel i acc = some acc2 →
      ∀ t ∈ acc2, P t := by
  intro fuel
  induction fuel with
  | zero =>
    intro i acc acc2 hacc h
    simp only [cimbLoop, Option.some.injEq] at h
    subst h
    exact hacc
  | succ fuel ih =>
    intro i acc acc2 hacc h
    simp only [cimbLoop] at h
    split at h
    · split at h
      · rename_i day month yearVal endOfs heq
        split at h
        · split at h
          · exact absurd h (by simp)
          · rename_i txDate hmk
            refine ih _ _ _ ?_ h
            intro t ht
            rcases List.mem_cons.mp ht with h1 | h2
            · subst h1
              exact hstep yearVal month day txDate _ _ hmk
            · exact hacc t h2
        · exact ih _ _ _ hacc h
      · exact ih _ _ _ hacc h
    · simp only [Option.some.injEq] at h
      subst h
      exact hacc

theorem cimbPages_inv (owner : Str) (P : Transaction → Prop)
    (hstep : ∀ yearVal month day txDate rest collected,
      tryMkDate yearVal month day = some txDate →
      P { date := txDate,
          description := pyStrip (collapseWs (List.intercalate [' ']
            (pyStrip (cimbStripSpans rest (cimbTokens rest)) :: collected))),
          amount := (cimbAmountType (cimbTokens rest)).1,
          type := (cimbAmountType (cimbTokens rest)).2,
          balance := cimbBalanceOf (cimbTokens rest),
          reference_no := [], bank_name := lit "CIMB",
          account_owner := owner, currency := lit "IDR" }) :
    ∀ pages acc acc2,
      (∀ t ∈ acc, P t) →
      cimbPages owner pages acc = some acc2 →
      ∀ t ∈ acc2, P t := by
  intro pages
  induction pages with
  | nil =>
    intro acc acc2 hacc h
    simp only [cimbPages, Option.some.injEq] at h
    subst h
    exact hacc
  | cons p ps ih =>
    intro acc acc2 hacc h
    simp only [cimbPages] at h
    by_cases hp : p.isEmpty = true
    · rw [if_pos hp] at h
      exact ih _ _ hacc h
    · rw [if_neg hp] at h
      cases hl : cimbLoop owner (splitOnChar '\n' p)
          ((splitOnChar '\n' p).length + 1) 0 acc with
      | none =>
        rw [hl] at h
        exact absurd h (by simp)
      | some accMid =>
        rw [hl] at h
        exact ih _ _ (cimbLoop_inv owner _ P hstep _ _ _ _ hacc hl) h

theorem cimbParse_inv (P : Transaction → Prop)
    (hstep : ∀ owner, ∀ yearVal month day txDate rest collected,
      tryMkDate yearVal month day = some txDate →
      P { date := txDate,
          description := pyStrip (collapseWs (List.intercalate [' ']
            (pyStrip (cimbStripSpans rest (cimbTokens rest)) :: collected))),
          amount := (cimbAmountType (cimbTokens rest)).1,
          type := (cimbAmountType (cimbTokens rest)).2,
          balance := cimbBalanceOf (cimbTokens rest),
          reference_no := [], bank_name := lit "CIMB",
          account_owner := owner, currency := lit "IDR" }) :
    ∀ ownerInit pages txs,
      cimbParse ownerInit pages = some txs → ∀ t ∈ txs, P t := by
  intro ownerInit pages txs h
  cases pages with
  | nil =>
    simp only [cimbParse, Option.some.injEq] at h
    subst h
    intro t ht
    simp at ht
  | cons p0 ps =>
    simp only [cimbParse] at h
    cases hpg : cimbPages (cimbOwner ownerInit p0) (p0 :: ps) [] with
    | none =>
      rw [hpg] at h
      exact absurd h (by simp)
    | some acc =>
      rw [hpg] at h
      simp only [Option.some.injEq] at h
      subst h
      intro t ht
      rw [List.mem_reverse] at ht
      exact cimbPages_inv _ P (hstep _) _ _ _ (by simp) hpg t ht

theorem xlsxRowDebit_nonneg (cols : XlsxCols) (row : List Cell)
    (hall : ∀ c ∈ row, 0 ≤ xlsxParseAmount c) : 0 ≤ xlsxRowDebit cols row := by
  unfold xlsxRowDebit
  by_cases hlt : cols.debitIdx < row.length
  · rw [if_pos hlt]
    refine hall _ ?_
    rw [List.getD_eq_getElem row Cell.empty hlt]
    exact List.getElem_mem hlt
  · rw [if_neg hlt]

theorem mandiriXlsxParse_mem (ownerInit : Str) (grid : List (List Cell))
    (t : Transaction) (ht : t ∈ mandiriXlsxParse ownerInit grid) :
    ∃ cols owner row, row ∈ grid ∧ xlsxRowTx cols owner row = some t := by
  unfold mandiriXlsxParse at ht
  split at ht
  · rw [List.mem_filterMap] at ht
    obtain ⟨row, hrow, hr⟩ := ht
    exact ⟨_, _, row, List.drop_subset _ _ hrow, hr⟩
  · split at ht
    · rw [List.mem_filterMap] at ht
      obtain ⟨row, hrow, hr⟩ := ht
      exact ⟨_, _, row, List.drop_subset _ _ hrow, hr⟩
    · exact absurd ht (by simp)

/-- C1 counterexample: the Tabular Grid Grammar can emit a transaction
with a negative amount.  On a grid whose data row holds -5 in the debit
cell and -3 in the credit cell (numbers delivered as-is by the reader),
the fallback branch emits a DEBIT transaction with amount max(-5,-3) =
-3 < 0. -/
theorem c1_counterexample :
    mandiriXlsxParse (lit "Owner") exGridNeg = [exTxNeg] ∧
    exTxNeg.amount < 0 ∧ exTxNeg.type = lit "DEBIT" := by
  refine ⟨by decide, by decide, rfl⟩

/-- C1 (amended): every transaction emitted by the three PDF grammars
(BCA, CIMB, Mandiri) has `amount ≥ 0` and a type in {DEBIT, CREDIT}.
The Tabular Grid Grammar always emits a type in {DEBIT, CREDIT}, but
its amount (`max(debit, credit)`) is only guaranteed nonnegative when
every cell of the grid parses to a nonnegative value — a sheet carrying
negative debit and credit cells yields a negative amount. -/
theorem c1_amended :
    (∀ nowYear ownerInit pages txs,
      bcaParse nowYear ownerInit pages = some txs →
      ∀ t ∈ txs, 0 ≤ t.amount ∧
        (t.type = lit "DEBIT" ∨ t.type = lit "CREDIT")) ∧
    (∀ ownerInit pages txs,
      cimbParse ownerInit pages = some txs →
      ∀ t ∈ txs, 0 ≤ t.amount ∧
        (t.type = lit "DEBIT" ∨ t.type = lit "CREDIT")) ∧
    (∀ owner pages, ∀ t ∈ mandiriPdfParse owner pages,
      0 ≤ t.amount ∧ (t.type = lit "DEBIT" ∨ t.type = lit "CREDIT")) ∧
    (∀ ownerInit grid, ∀ t ∈ mandiriXlsxParse ownerInit grid,
      (t.type = lit "DEBIT" ∨ t.type = lit "CREDIT") ∧
      ((∀ row ∈ grid, ∀ c ∈ row, 0 ≤ xlsxParseAmount c) →
        0 ≤ t.amount)) := by
  refine ⟨?_, ?_, ?_, ?_⟩
  · intro nowYear ownerInit pages txs h
    refine bcaParse_inv _ ?_ nowYear ownerInit pages txs h
    intro year owner m d txDate content bal2 hmk
    exact ⟨bcaAmount_nonneg content, bcaType_cases content⟩
  · intro ownerInit pages txs h
    refine cimbParse_inv _ ?_ ownerInit pages txs h
    intro owner yearVal month day txDate rest collected hmk
    exact ⟨cimbAmountType_nonneg rest, cimbAmountType_cases (cimbTokens rest)⟩
  · intro owner pages t ht
    obtain ⟨-, h2, h3⟩ := mandiriPdfParse_emitted owner pages t ht
    exact ⟨le_of_lt h2, h3⟩
  · intro ownerInit grid t ht
    obtain ⟨cols, owner, row, hrow, hr⟩ :=
      mandiriXlsxParse_mem ownerInit grid t ht
    obtain ⟨hamt, hty, -, -⟩ := xlsxRowTx_spec cols owner row t hr
    refine ⟨hty, ?_⟩
    intro hall
    rw [hamt]
    exact le_trans (xlsxRowDebit_nonneg cols row (hall row hrow))
      (le_max_left _ _)

/-- C1 witness: the amended invariant instantiated on the concrete
example grid's emitted transaction. -/
theorem c1_witness :
    (exTxC6.type = lit "DEBIT" ∨ exTxC6.type = lit "CREDIT") ∧
    0 ≤ exTxC6.amount := by
  have h := c1_amended.2.2.2 (lit "Owner") exGridC6 exTxC6 (by decide)
  exact ⟨h.1, h.2 (by decide)⟩

/-- C10 witness: the clock-year dependence instantiated on the concrete
example page, which carries no PERIODE banner. -/
theorem c10_witness :
    searchPeriode exPageC10 = none ∧
    ∃ txs, bcaParse 2024 (lit "Owner") [exPageC10] = some txs ∧
      ∀ t ∈ txs, t.date.year = 2024 := by
  refine ⟨by decide, ?_⟩
  cases hp : bcaParse 2024 (lit "Owner") [exPageC10] with
  | none => exact absurd hp (by decide)
  | some txs =>
    exact ⟨txs, rfl, c10_bca_clock_year.1 2024 (lit "Owner") exPageC10 []
      txs (by decide) hp⟩
